import Mathlib

/-!
Verification development for the fizzy-cli cross-account board-migration
subsystem: the inline-attachment reference parser (`parseAttachments`,
src/unnamed/part_002), the pseudo-column registry (src/unnamed/part_005 and
the column-list command, src/internal/commands/column.go), the account access
verifier and the migration orchestrator (`runMigrateBoard`, `migrateCard`,
`migrateInlineAttachments`, src/unnamed/part_004).

Modelling conventions:
* Go strings that the code inspects character by character (HTML bodies,
  attribute values, sgids, URLs) are `List Char`; strings the code only
  stores and forwards (titles, account slugs, column names) are `String`.
* Go maps (`map[int]int`, `map[string]string`) are association lists with
  Go insertion semantics (`goMapInsert`: overwrite if the key is present,
  append otherwise).
* HTTP effects are an oracle environment `Env`: each call site reads its
  result from the corresponding `Env` field, and the model emits a `Call`
  trace recording which requests were issued, in order.  `Call.isMutating`
  separates POST/PATCH/upload bundles from read-only GETs and downloads.
* The Go regular expressions of part_002 are translated into equivalent
  character-level scanners with the same leftmost-match semantics; each
  scanner documents the regex it embeds.
-/

/-! ### Go string primitives -/

/-- Go regexp `\s` character class: `[\t\n\f\r ]`. -/
def goSpace (c : Char) : Bool :=
  c == ' ' || c == '\t' || c == '\n' || c == '\x0c' || c == '\r'

/-- Split `s` at the first occurrence of `pat`: returns the part strictly
before the occurrence and the part strictly after it.  `none` when `pat`
does not occur.  Only used with non-empty patterns. -/
def splitOnFirst (pat : List Char) : List Char → Option (List Char × List Char)
  | [] => none
  | c :: t =>
    if pat.isPrefixOf (c :: t) then some ([], (c :: t).drop pat.length)
    else
      match splitOnFirst pat t with
      | some (b, a) => some (c :: b, a)
      | none => none

/-- Replace the first position at which `pat` is a prefix of the remaining
input by `rep` (helper for `goReplace1`). -/
def replaceFirstAux (pat rep : List Char) : List Char → List Char
  | [] => []
  | c :: t =>
    if pat.isPrefixOf (c :: t) then rep ++ (c :: t).drop pat.length
    else c :: replaceFirstAux pat rep t

/-- Go `strings.Replace(s, pat, rep, 1)`: replace the first occurrence of
`pat` in `s` by `rep` (an empty `pat` inserts `rep` at the front). -/
def goReplace1 (s pat rep : List Char) : List Char :=
  if pat.isEmpty then rep ++ s else replaceFirstAux pat rep s

/-- Substring test: does `pat` occur contiguously inside `s`? -/
def containsSub : List Char → List Char → Bool
  | [], pat => pat.isPrefixOf ([] : List Char)
  | c :: t, pat => pat.isPrefixOf (c :: t) || containsSub t pat

theorem splitOnFirst_sound {pat s b a : List Char}
    (h : splitOnFirst pat s = some (b, a)) : s = b ++ pat ++ a := by
  induction s generalizing b with
  | nil => simp [splitOnFirst] at h
  | cons c t ih =>
    by_cases hp : pat.isPrefixOf (c :: t)
    · simp only [splitOnFirst, hp, if_pos] at h
      obtain ⟨rfl, rfl⟩ : b = [] ∧ (c :: t).drop pat.length = a := by
        simpa using h
      rcases (List.isPrefixOf_iff_prefix.mp hp) with ⟨r, hr⟩
      simp [← hr, List.drop_left]
    · simp only [splitOnFirst, hp] at h
      rcases hsplit : splitOnFirst pat t with _ | ⟨b', a'⟩
      · simp [hsplit] at h
      · simp only [hsplit] at h
        obtain ⟨rfl, rfl⟩ : c :: b' = b ∧ a' = a := by simpa using h
        simpa using ih hsplit

theorem splitOnFirst_min {pat s b a : List Char}
    (h : splitOnFirst pat s = some (b, a)) :
    ∀ b2 a2, s = b2 ++ pat ++ a2 → b.length ≤ b2.length := by
  induction s generalizing b with
  | nil => simp [splitOnFirst] at h
  | cons c t ih =>
    intro b2 a2 hdecomp
    by_cases hp : pat.isPrefixOf (c :: t)
    · simp only [splitOnFirst, hp, if_pos] at h
      obtain ⟨rfl, -⟩ : b = [] ∧ (c :: t).drop pat.length = a := by simpa using h
      simp
    · simp only [splitOnFirst, hp] at h
      rcases hsplit : splitOnFirst pat t with _ | ⟨b', a'⟩
      · simp [hsplit] at h
      · simp only [hsplit] at h
        obtain ⟨rfl, rfl⟩ : c :: b' = b ∧ a' = a := by simpa using h
        cases b2 with
        | nil =>
          exfalso
          apply hp
          apply List.isPrefixOf_iff_prefix.mpr
          exact ⟨a2, by simpa using hdecomp.symm⟩
        | cons c2 b2' =>
          have hct : t = b2' ++ pat ++ a2 := by
            simpa using congrArg List.tail hdecomp
          simpa using Nat.succ_le_succ (ih hsplit b2' a2 hct)

theorem replaceFirstAux_eq_of_split {pat s b a : List Char} (rep : List Char)
    (h : splitOnFirst pat s = some (b, a)) :
    replaceFirstAux pat rep s = b ++ rep ++ a := by
  induction s generalizing b with
  | nil => simp [splitOnFirst] at h
  | cons c t ih =>
    by_cases hp : pat.isPrefixOf (c :: t)
    · simp only [splitOnFirst, hp, if_pos] at h
      obtain ⟨rfl, rfl⟩ : b = [] ∧ (c :: t).drop pat.length = a := by simpa using h
      simp [replaceFirstAux, hp]
    · simp only [splitOnFirst, hp] at h
      rcases hsplit : splitOnFirst pat t with _ | ⟨b', a'⟩
      · simp [hsplit] at h
      · simp only [hsplit] at h
        obtain ⟨rfl, rfl⟩ : c :: b' = b ∧ a' = a := by simpa using h
        simp [replaceFirstAux, hp, ih hsplit]

theorem goReplace1_eq_of_split {pat s b a : List Char} (rep : List Char)
    (hpat : ¬ pat.isEmpty = true) (h : splitOnFirst pat s = some (b, a)) :
    goReplace1 s pat rep = b ++ rep ++ a := by
  unfold goReplace1
  rw [if_neg hpat]
  exact replaceFirstAux_eq_of_split rep h

theorem containsSub_iff {s pat : List Char} :
    containsSub s pat = true ↔ ∃ b a, s = b ++ pat ++ a := by
  induction s with
  | nil =>
    simp only [containsSub]
    rw [List.isPrefixOf_iff_prefix, List.prefix_nil]
    constructor
    · rintro rfl
      exact ⟨[], [], rfl⟩
    · rintro ⟨b, a, h⟩
      have hlen := congrArg List.length h
      simp [List.length_append] at hlen
      exact List.length_eq_zero.mp (by omega)
  | cons c t ih =>
    simp only [containsSub, Bool.or_eq_true]
    constructor
    · rintro (h | h)
      · rcases List.isPrefixOf_iff_prefix.mp h with ⟨r, hr⟩
        exact ⟨[], r, by simp [← hr]⟩
      · rcases ih.mp h with ⟨b, a, hba⟩
        exact ⟨c :: b, a, by simp [hba]⟩
    · rintro ⟨b, a, hba⟩
      cases b with
      | nil =>
        left
        exact List.isPrefixOf_iff_prefix.mpr ⟨a, by simpa using hba.symm⟩
      | cons x xs =>
        right
        refine ih.mpr ⟨xs, a, ?_⟩
        simpa using congrArg List.tail hba

theorem containsSub_append_left {x pat : List Char} (y : List Char)
    (h : containsSub x pat = true) : containsSub (x ++ y) pat = true := by
  rcases containsSub_iff.mp h with ⟨b, a, rfl⟩
  exact containsSub_iff.mpr ⟨b, a ++ y, by simp⟩

theorem containsSub_append_right {y pat : List Char} (x : List Char)
    (h : containsSub y pat = true) : containsSub (x ++ y) pat = true := by
  rcases containsSub_iff.mp h with ⟨b, a, rfl⟩
  exact containsSub_iff.mpr ⟨x ++ b, a, by simp⟩

/-- Go `strings.TrimPrefix(s, "/")`: removes one leading slash when present. -/
def stripLeadSlash (s : String) : String :=
  match s.data with
  | '/' :: rest => String.mk rest
  | _ => s

/-! ### Attachment reference parser (src/unnamed/part_002, `parseAttachments`)

The Go code matches `(?s)<action-text-attachment\s+([^>]+)>(.*?)</action-text-attachment>`
with `FindAllStringSubmatch`, then per match extracts attributes and a
download URL, filters non-file references, and re-indexes. -/

def litOpen : List Char := ("<action-text-attachment").toList

def litClose : List Char := ("</action-text-attachment>").toList

/-- Capture group 1 of the element regex.  `gap` is the segment between the
literal `<action-text-attachment` and the first following `>` (neither `\s`
nor `[^>]` can cross a `>`).  `\s+` requires the gap to start with
whitespace; `[^>]+` then takes the rest of the gap, backtracking `\s+` by
one character when the gap is all whitespace. -/
def gapAttrs (gap : List Char) : Option (List Char) :=
  match gap with
  | [] => none
  | c :: _ =>
    if goSpace c then
      match gap.dropWhile goSpace with
      | [] =>
        if 2 ≤ gap.length then
          match gap.getLast? with
          | some l => some [l]
          | none => none
        else none
      | r => some r
    else none

/-- Attempt to match the attachment-element regex at the very start of `s`.
Returns `(attrs, content, rest)` where `content` is the lazy (shortest)
inner content and `rest` is the input after the closing literal. -/
def matchATAAt (s : List Char) : Option (List Char × List Char × List Char) :=
  if litOpen.isPrefixOf s then
    let t := s.drop litOpen.length
    let gap := t.takeWhile (fun c => !(c == '>'))
    match gapAttrs gap with
    | none => none
    | some attrs =>
      match t.drop gap.length with
      | [] => none
      | _ :: u =>
        match splitOnFirst litClose u with
        | none => none
        | some (content, after) => some (attrs, content, after)
  else none

theorem matchATAAt_rest_lt {s attrs content rest : List Char}
    (h : matchATAAt s = some (attrs, content, rest)) : rest.length < s.length := by
  unfold matchATAAt at h
  by_cases hp : litOpen.isPrefixOf s
  · simp only [hp, if_pos] at h
    rcases hg : gapAttrs ((s.drop litOpen.length).takeWhile (fun c => !(c == '>'))) with _ | attrs'
    · simp [hg] at h
    · simp only [hg] at h
      rcases hd : (s.drop litOpen.length).drop
          ((s.drop litOpen.length).takeWhile (fun c => !(c == '>'))).length with _ | ⟨x, u⟩
      · simp [hd] at h
      · simp only [hd] at h
        rcases hs : splitOnFirst litClose u with _ | ⟨content', after⟩
        · simp [hs] at h
        · simp only [hs] at h
          obtain ⟨-, -, rfl⟩ : attrs' = attrs ∧ content' = content ∧ after = rest := by
            simpa using h
          have hu : u = content' ++ litClose ++ after := splitOnFirst_sound hs
          have hul : u.length = content'.length + litClose.length + after.length := by
            rw [hu]; simp [List.length_append]; omega
          have hcl : 0 < litClose.length := by decide
          have hlit : litOpen.length ≤ s.length :=
            (List.isPrefixOf_iff_prefix.mp hp).length_le
          have hd' := congrArg List.length hd
          simp only [List.length_cons, List.length_drop] at hd'
          omega
  · simp [hp] at h

/-- Fuel-indexed scan for all non-overlapping leftmost matches of the
element regex (Go `FindAllStringSubmatch`): at each position try to match;
on success continue after the match, otherwise advance one character.
Every step consumes at least one character (`matchATAAt_rest_lt`), so fuel
`s.length` is always sufficient; see `findATAFuel_irrel`. -/
def findATAFuel : Nat → List Char → List (List Char × List Char)
  | 0, _ => []
  | Nat.succ fuel, s =>
    match matchATAAt s with
    | some (attrs, content, rest) => (attrs, content) :: findATAFuel fuel rest
    | none =>
      match s with
      | [] => []
      | _ :: t => findATAFuel fuel t

/-- All element matches of the attachment regex over the document, in
document order, as `(attrs, content)` capture pairs. -/
def findATA (s : List Char) : List (List Char × List Char) :=
  findATAFuel s.length s

theorem findATAFuel_irrel :
    ∀ (n : Nat) (s : List Char) (f₁ f₂ : Nat), s.length ≤ n →
      s.length ≤ f₁ → s.length ≤ f₂ → findATAFuel f₁ s = findATAFuel f₂ s := by
  intro n
  induction n with
  | zero =>
    intro s f₁ f₂ hn _ _
    have hs : s = [] := List.length_eq_zero.mp (Nat.le_zero.mp hn)
    subst hs
    cases f₁ <;> cases f₂ <;> simp [findATAFuel, matchATAAt, litOpen]
  | succ n ih =>
    intro s f₁ f₂ hn h1 h2
    cases s with
    | nil => cases f₁ <;> cases f₂ <;> simp [findATAFuel, matchATAAt, litOpen]
    | cons c t =>
      have hl : (c :: t).length = t.length + 1 := by simp
      cases f₁ with
      | zero => simp at h1
      | succ f₁' =>
        cases f₂ with
        | zero => simp at h2
        | succ f₂' =>
          rcases hm : matchATAAt (c :: t) with _ | ⟨attrs, content, rest⟩
          · have ht : t.length ≤ n := by simp at hn; omega
            simp only [findATAFuel, hm]
            exact ih t f₁' f₂' ht (by simp at h1; omega) (by simp at h2; omega)
          · have hr : rest.length < (c :: t).length := matchATAAt_rest_lt hm
            have hrn : rest.length ≤ n := by simp at hn ⊢; omega
            simp only [findATAFuel, hm]
            rw [ih rest f₁' f₂' hrn (by simp at h1; omega) (by simp at h2; omega)]

/-- Go `extractAttr` helper regex `name="([^"]*)"` scanned over the
attribute segment: at each position where `name="` matches and a closing
quote follows, capture the quoted value; otherwise advance one character. -/
def extractAttrAux (pat : List Char) : List Char → Option (List Char)
  | [] => none
  | c :: t =>
    if pat.isPrefixOf (c :: t) then
      let rest := (c :: t).drop pat.length
      let v := rest.takeWhile (fun ch => !(ch == '\"'))
      if v.length < rest.length then some v
      else extractAttrAux pat t
    else extractAttrAux pat t

/-- Go `extractAttr(attrs, name)`: first `name="..."` capture, or the empty
string when the pattern does not occur. -/
def extractAttr (attrs name : List Char) : List Char :=
  match extractAttrAux (name ++ ('=' :: '\"' :: [])) attrs with
  | some v => v
  | none => []

/-- Go `strconv.ParseInt(s, 10, 64)` (and `Atoi` on a 64-bit platform):
optional sign, at least one decimal digit, value within int64 range;
`none` models a non-nil error. -/
def parseGoInt (s : List Char) : Option Int :=
  match s with
  | [] => none
  | '+' :: ds =>
    if ds.isEmpty then none
    else if ds.all Char.isDigit then
      let n := ds.foldl (fun acc c => acc * 10 + (c.toNat - ('0').toNat)) 0
      if n ≤ 9223372036854775807 then some (Int.ofNat n) else none
    else none
  | '-' :: ds =>
    if ds.isEmpty then none
    else if ds.all Char.isDigit then
      let n := ds.foldl (fun acc c => acc * 10 + (c.toNat - ('0').toNat)) 0
      if n ≤ 9223372036854775808 then some (-(Int.ofNat n)) else none
    else none
  | ds =>
    if ds.all Char.isDigit then
      let n := ds.foldl (fun acc c => acc * 10 + (c.toNat - ('0').toNat)) 0
      if n ≤ 9223372036854775807 then some (Int.ofNat n) else none
    else none

def hrefPat : List Char := ("href=\"").toList

def dispoLit : List Char := ("?disposition=attachment").toList

def blobLit : List Char := ("/rails/active_storage/blobs/redirect/").toList

/-- Go regex `href="([^"]+\?disposition=attachment)"` scanned over the
element content: at each `href="` occurrence the quoted value (up to the
first following `"`, which must exist) matches iff it is `X ++
"?disposition=attachment"` with `X` non-empty; otherwise the scan advances
one character. -/
def scanDispo : List Char → Option (List Char)
  | [] => none
  | c :: t =>
    if hrefPat.isPrefixOf (c :: t) then
      let rest := (c :: t).drop hrefPat.length
      let v := rest.takeWhile (fun ch => !(ch == '\"'))
      if v.length < rest.length && dispoLit.isSuffixOf v
          && decide (dispoLit.length < v.length) then some v
      else scanDispo t
    else scanDispo t

/-- Checks an occurrence of `blobLit` starting at the current position with
at least one character remaining after it, else recurses. -/
def occProperTail : List Char → Bool
  | [] => false
  | c :: t => (blobLit.isPrefixOf (c :: t) && decide (blobLit.length ≤ t.length)) || occProperTail t

/-- Shape test for capture `(/[^"]+/rails/active_storage/blobs/redirect/[^"]+)`:
a leading slash, at least one character, the blob literal, and at least one
trailing character (the quoted value contains no quote by construction). -/
def blobShapeOk (v : List Char) : Bool :=
  match v with
  | '/' :: w =>
    match w with
    | [] => false
    | _ :: t => occProperTail t
  | _ => false

/-- Go regex `href="(/[^"]+/rails/active_storage/blobs/redirect/[^"]+)"`
scanned over the element content. -/
def scanBlob : List Char → Option (List Char)
  | [] => none
  | c :: t =>
    if hrefPat.isPrefixOf (c :: t) then
      let rest := (c :: t).drop hrefPat.length
      let v := rest.takeWhile (fun ch => !(ch == '\"'))
      if v.length < rest.length && blobShapeOk v then some v
      else scanBlob t
    else scanBlob t

/-- Download-URL resolution of `parseAttachments` (part_002 lines 216-234):
prefer the `?disposition=attachment`-suffixed anchor; otherwise fall back
to a storage-blob redirect path, appending `?disposition=attachment` when
the path contains no `?`. -/
def resolveDownloadURL (content : List Char) : List Char :=
  match scanDispo content with
  | some v => v
  | none =>
    match scanBlob content with
    | some v => if v.contains '?' then v else v ++ dispoLit
    | none => []

/-- The `Attachment` record of part_002. -/
structure GoAttachment where
  Index : Nat
  Filename : List Char
  ContentType : List Char
  Filesize : Int
  Width : Int
  Height : Int
  DownloadURL : List Char
  SGID : List Char
deriving DecidableEq, Repr

/-- Per-match record construction (part_002 lines 182-236): attribute
extraction with zero defaults for missing or unparsable numerics, and
download-URL resolution over the inner content. -/
def extractRecord (idx : Nat) (attrs content : List Char) : GoAttachment :=
  { Index := idx
    SGID := extractAttr attrs (("sgid").toList)
    ContentType := extractAttr attrs (("content-type").toList)
    Filename := extractAttr attrs (("filename").toList)
    Filesize := (parseGoInt (extractAttr attrs (("filesize").toList))).getD 0
    Width := (parseGoInt (extractAttr attrs (("width").toList))).getD 0
    Height := (parseGoInt (extractAttr attrs (("height").toList))).getD 0
    DownloadURL := resolveDownloadURL content }

/-- All per-match records with their pre-filter indices 1..M. -/
def rawRecords (html : List Char) : List GoAttachment :=
  (findATA html).enum.map (fun p => extractRecord (p.1 + 1) p.2.1 p.2.2)

/-- Filter of part_002 lines 240-246: drop records with neither a filename
nor a download URL. -/
def keepAttachment (a : GoAttachment) : Bool :=
  !(a.Filename.isEmpty && a.DownloadURL.isEmpty)

/-- Re-indexing of part_002 lines 249-251: surviving records get indices 1..N. -/
def reindexAttachments (l : List GoAttachment) : List GoAttachment :=
  l.enum.map (fun p => { p.2 with Index := p.1 + 1 })

/-- Go `parseAttachments` (part_002 lines 174-254). -/
def parseAttachments (html : List Char) : List GoAttachment :=
  reindexAttachments ((rawRecords html).filter keepAttachment)

/-! ### Pseudo-column registry (src/unnamed/part_005) and column listing
(src/internal/commands/column.go, `columnListCmd`) -/

/-- The `pseudoColumn` record of part_005. -/
structure pseudoColumn where
  ID : String
  Name : String
  Kind : String
deriving DecidableEq, Repr

def pseudoColumnNotYet : pseudoColumn :=
  { ID := ("not-yet"), Name := ("Not Yet"), Kind := ("triage") }

def pseudoColumnMaybe : pseudoColumn :=
  { ID := ("maybe"), Name := ("Maybe?"), Kind := ("not_now") }

def pseudoColumnDone : pseudoColumn :=
  { ID := ("done"), Name := ("Done"), Kind := ("closed") }

def pseudoColumnsInBoardOrder : List pseudoColumn :=
  [pseudoColumnNotYet, pseudoColumnMaybe, pseudoColumnDone]

/-- The JSON object emitted for a pseudo column (part_005, `pseudoColumnObject`). -/
structure ColumnObj where
  id : String
  name : String
  kind : String
  pseudo : Bool
deriving DecidableEq, Repr

def pseudoColumnObject (c : pseudoColumn) : ColumnObj :=
  { id := c.ID, name := c.Name, kind := c.Kind, pseudo := true }

/-- Modelled from the spec: the identifier `pseudoColumnNotNow` used by
`columnListCmd` (src/internal/commands/column.go line 48) is not defined
anywhere under the provided sources; part_005 names the three registry
records `pseudoColumnNotYet`, `pseudoColumnMaybe`, `pseudoColumnDone`.
Per spec sections 4.1 and 4.2 the first synthetic lane in the fixed
board-display order is the triage lane ("Not Yet"), so the missing record
is modelled as the triage pseudo-column. -/
def pseudoColumnNotNow : pseudoColumn := pseudoColumnNotYet

/-- The column list assembled by `columnListCmd` (column.go lines 47-50):
two synthetic lanes, then the server-returned real columns, then Done. -/
def columnListColumns (data : List ColumnObj) : List ColumnObj :=
  (pseudoColumnObject pseudoColumnNotNow :: pseudoColumnObject pseudoColumnMaybe :: data)
    ++ [pseudoColumnObject pseudoColumnDone]

/-! ### Migration data model (src/unnamed/part_004) -/

/-- The fields of a source column that `runMigrateBoard` reads.  `kind` and
`pseudo` are `Option` because the Go code distinguishes a missing key from
a present one in its type assertions. -/
structure SourceColumn where
  kind : Option String
  pseudo : Option Bool
  name : String
  color : String
  id : String
deriving DecidableEq, Repr

/-- A column survives the cloning filter (part_004 lines 156-162) unless its
`kind` is present and not `"real"`, or its `pseudo` flag is present and true. -/
def colIsReal (c : SourceColumn) : Bool :=
  (match c.kind with
   | some k => k == ("real")
   | none => true) &&
  (match c.pseudo with
   | some b => !b
   | none => true)

/-- Go `countRealColumns` (part_004 lines 840-856). -/
def countRealColumns : List SourceColumn → Nat
  | [] => 0
  | c :: rest => (if colIsReal c then 1 else 0) + countRealColumns rest

/-- A step record read by `migrateSteps` (part_004 lines 655-666).  Non-map
entries of the steps array, which the Go code skips, are omitted. -/
structure GoStep where
  content : String
  completed : Bool
deriving DecidableEq, Repr

/-- The fields of a source card that `migrateCard` reads, after the helper
accessors: `number` via `getIntField` (0 when missing), string fields via
`getStringField` (empty when missing), `columnID` via `getCardColumnID`
(empty when absent), `tags` with non-string entries already skipped. -/
structure SourceCard where
  number : Int
  title : String
  description : List Char
  descriptionHTML : List Char
  createdAt : String
  tags : List String
  columnID : String
  status : String
  golden : Bool
  imageURL : String
  steps : List GoStep
deriving DecidableEq, Repr

/-- The card-creation body assembled by `migrateCard` (part_004 lines
398-406): `description` and `created_at` are only sent when non-empty. -/
structure CardParams where
  title : String
  description : Option (List Char)
  createdAt : Option String
deriving DecidableEq, Repr

/-- Upload response fields read by the attachment migrator via
`getStringField` (empty when missing). -/
structure UploadResp where
  attachableSgid : List Char
  signedId : List Char
deriving DecidableEq, Repr

/-- `newSGID` selection of `migrateInlineAttachments` (part_004 lines
780-784): `attachable_sgid`, falling back to `signed_id`. -/
def newSgidOf (u : UploadResp) : List Char :=
  if u.attachableSgid.isEmpty then u.signedId else u.attachableSgid

/-- The command options of `migrate board` (flags, part_004 lines 22-27),
validated before the run begins. -/
structure MigrateOpts where
  fromAccount : String
  toAccount : String
  includeComments : Bool
  includeSteps : Bool
  includeImages : Bool
  dryRun : Bool
deriving DecidableEq, Repr

/-- Oracle environment: the result each API call site observes.  `none`
models a failed request (or a response from which the code cannot extract
what it needs, which it handles identically at that site).  `moveOk`,
`closeOk` and `goldenOk` are carried for completeness: their failure only
produces a warning and changes no observable state, which is why the model
never branches on them. -/
structure Env where
  identity : Option (List String)
  board : Option String
  columns : Option (List SourceColumn)
  cards : Option (List SourceCard)
  createBoard : String → Option String
  createColumn : SourceColumn → Option String
  createCard : CardParams → Option Int
  attDownload : GoAttachment → Bool
  attUpload : GoAttachment → Option UploadResp
  tagOk : SourceCard → String → Bool
  moveOk : SourceCard → Bool
  closeOk : SourceCard → Bool
  goldenOk : SourceCard → Bool
  commentsCreated : SourceCard → Int
  stepOk : SourceCard → String → Bool
  imageOk : SourceCard → Bool

/-- Requests issued by the orchestrator, in order.  `commentsTransfer` and
`headerImageTransfer` stand for the whole comment-migration and
header-image bundles (each contains at least one mutating call). -/
inductive Call where
  | getIdentity
  | getBoardCall
  | getColumnsCall
  | getCardsCall
  | postBoard (name : String)
  | postColumn (boardID : String) (name : String) (color : String)
  | postCard (boardID : String) (params : CardParams)
  | postTagging (cardNum : Int) (tag : String)
  | postTriage (cardNum : Int) (columnID : String)
  | postClosure (cardNum : Int)
  | postGoldness (cardNum : Int)
  | commentsTransfer (cardNum : Int)
  | postStep (cardNum : Int) (content : String)
  | headerImageTransfer (cardNum : Int) (url : String)
  | downloadAttachment (url : List Char)
  | uploadAttachment (index : Nat)
deriving DecidableEq, Repr

def Call.isMutating : Call → Bool
  | .getIdentity => false
  | .getBoardCall => false
  | .getColumnsCall => false
  | .getCardsCall => false
  | .downloadAttachment _ => false
  | _ => true

def Call.isTriage : Call → Bool
  | .postTriage _ _ => true
  | _ => false

def Call.isPostCard : Call → Bool
  | .postCard _ _ => true
  | _ => false

/-- Go map insertion: overwrite the value when the key is present, append
a new entry otherwise. -/
def goMapInsert {α β : Type} [DecidableEq α] (m : List (α × β)) (k : α) (v : β) :
    List (α × β) :=
  if m.any (fun p => decide (p.1 = k)) then
    m.map (fun p => if p.1 = k then (k, v) else p)
  else m ++ [(k, v)]

/-- Go map read with `ok` flag: the entry for `k`, if any. -/
def goMapLookup {α β : Type} [DecidableEq α] (m : List (α × β)) (k : α) : Option β :=
  match m with
  | [] => none
  | p :: r => if p.1 = k then some p.2 else goMapLookup r k

/-- The `migrationStats` accumulator (part_004 lines 53-64). -/
structure MigrationStats where
  boardCreated : Bool
  targetBoardID : String
  targetBoardName : String
  columnsCreated : Int
  cardsCreated : Int
  tagsApplied : Int
  commentsCreated : Int
  stepsCreated : Int
  imagesMigrated : Int
  cardMapping : List (Int × Int)
deriving DecidableEq, Repr

/-- The zero-valued stats record created at part_004 lines 83-85. -/
def initialStats : MigrationStats :=
  { boardCreated := false, targetBoardID := (""), targetBoardName := ("")
    columnsCreated := 0, cardsCreated := 0, tagsApplied := 0
    commentsCreated := 0, stepsCreated := 0, imagesMigrated := 0
    cardMapping := [] }

/-- Errors of `verifyAccountAccess` (part_004 lines 221-267).
`identityUnavailable` collapses the three early failures (request error,
non-map data, missing accounts array), none of which names an account. -/
inductive VerifyErr where
  | identityUnavailable
  | noSourceAccess (slug : String)
  | noTargetAccess (slug : String)
deriving DecidableEq, Repr

/-- Slug comparison of the verifier loop (part_004 lines 250-256): the
stored slug with one leading slash stripped, or the stored slug verbatim,
must equal the provided slug. -/
def slugMatches (stored provided : String) : Bool :=
  stripLeadSlash stored == provided || stored == provided

/-- Go `verifyAccountAccess` (part_004 lines 221-267).  The loop over the
accounts array is expressed with `List.any`; non-map entries, which the Go
code skips, are omitted from the modelled slug list. -/
def verifyAccountAccess (identity : Option (List String))
    (sourceAccount targetAccount : String) : Except VerifyErr Unit :=
  match identity with
  | none => .error .identityUnavailable
  | some slugs =>
    let foundSource := slugs.any (fun sl => slugMatches sl sourceAccount)
    let foundTarget := slugs.any (fun sl => slugMatches sl targetAccount)
    if !foundSource then .error (.noSourceAccess sourceAccount)
    else if !foundTarget then .error (.noTargetAccess targetAccount)
    else .ok ()

/-! ### Attachment migrator and card migration (src/unnamed/part_004) -/

/-- Loop body of `migrateInlineAttachments` (part_004 lines 748-795) over
the parsed attachment list: skip records without a download URL; download,
upload, pick the new sgid; when both the old and new sgid are non-empty,
replace the first occurrence of the old sgid in the running HTML and count
the attachment as migrated.  Every failure skips to the next record. -/
def inlineLoop (env : Env) : List GoAttachment → List Char → Nat →
    List Char × Nat × List Call
  | [], result, cnt => (result, cnt, [])
  | a :: rest, result, cnt =>
    if a.DownloadURL.isEmpty then inlineLoop env rest result cnt
    else if !(env.attDownload a) then
      let r := inlineLoop env rest result cnt
      (r.1, r.2.1, Call.downloadAttachment a.DownloadURL :: r.2.2)
    else
      match env.attUpload a with
      | none =>
        let r := inlineLoop env rest result cnt
        (r.1, r.2.1, Call.downloadAttachment a.DownloadURL ::
          Call.uploadAttachment a.Index :: r.2.2)
      | some u =>
        let newS := newSgidOf u
        if newS.isEmpty || a.SGID.isEmpty then
          let r := inlineLoop env rest result cnt
          (r.1, r.2.1, Call.downloadAttachment a.DownloadURL ::
            Call.uploadAttachment a.Index :: r.2.2)
        else
          let r := inlineLoop env rest (goReplace1 result a.SGID newS) (cnt + 1)
          (r.1, r.2.1, Call.downloadAttachment a.DownloadURL ::
            Call.uploadAttachment a.Index :: r.2.2)

/-- Go `migrateInlineAttachments` (part_004 lines 739-798): parse the HTML,
transfer each downloadable attachment, and return the rewritten HTML with
the migrated count.  The Go function always returns a nil error. -/
def migrateInlineAttachments (env : Env) (html : List Char) :
    List Char × Nat × List Call :=
  inlineLoop env (parseAttachments html) html 0

/-- The inline-migration step of `migrateCard` (part_004 lines 384-395),
guarded by the images flag and a non-empty `description_html`. -/
def inlinePhase (o : MigrateOpts) (env : Env) (c : SourceCard) :
    List Char × Nat × List Call :=
  if o.includeImages && !c.descriptionHTML.isEmpty then
    migrateInlineAttachments env c.descriptionHTML
  else (c.descriptionHTML, 0, [])

/-- Empty strings are omitted from request bodies. -/
def optStr (s : List Char) : Option (List Char) :=
  if s.isEmpty then none else some s

/-- The card-creation body of `migrateCard` (part_004 lines 398-406): the
migrated HTML when at least one inline attachment migrated, otherwise the
plain source description. -/
def buildCardParams (o : MigrateOpts) (env : Env) (c : SourceCard) : CardParams :=
  let ip := inlinePhase o env c
  { title := c.title
    description := optStr (if 0 < ip.2.1 then ip.1 else c.description)
    createdAt := if c.createdAt.isEmpty then none else some c.createdAt }

/-- Whether card creation produced a usable new card number (part_004 lines
413-439): the POST must succeed and a non-zero number be extracted from the
followed location or the response body; both extraction routes are
collapsed into the oracle value. -/
def cardOutcome (o : MigrateOpts) (env : Env) (c : SourceCard) : Option Int :=
  match env.createCard (buildCardParams o env c) with
  | none => none
  | some n => if n = 0 then none else some n

/-- Tag application loop (part_004 lines 445-458): one POST per tag, the
counter advancing only on success. -/
def applyTagsLoop (env : Env) (c : SourceCard) (n : Int) :
    List String → MigrationStats → MigrationStats × List Call
  | [], stats => (stats, [])
  | tag :: rest, stats =>
    let stats1 := if env.tagOk c tag then
        { stats with tagsApplied := stats.tagsApplied + 1 } else stats
    let r := applyTagsLoop env c n rest stats1
    (r.1, Call.postTagging n tag :: r.2)

/-- Step migration loop (`migrateSteps`, part_004 lines 643-688): steps with
empty content are skipped; one POST per remaining step, counted on success. -/
def stepsLoop (env : Env) (c : SourceCard) (n : Int) :
    List GoStep → MigrationStats → MigrationStats × List Call
  | [], stats => (stats, [])
  | st :: rest, stats =>
    if st.content.isEmpty then stepsLoop env c n rest stats
    else
      let stats1 := if env.stepOk c st.content then
          { stats with stepsCreated := stats.stepsCreated + 1 } else stats
      let r := stepsLoop env c n rest stats1
      (r.1, Call.postStep n st.content :: r.2)

/-- Go `migrateCard` (part_004 lines 376-527).  Returns the updated stats,
the new card number on success (`none` when the POST failed or no number
could be extracted), and the calls issued.  Failures of the per-card
sub-steps (tags, column placement, closing, golden flag, comments, steps,
header image) only print warnings in the source; here they only affect the
corresponding counters. -/
def migrateCard (o : MigrateOpts) (env : Env) (targetBoardID : String)
    (columnMapping : List (String × String)) (stats : MigrationStats)
    (c : SourceCard) : MigrationStats × Option Int × List Call :=
  let ip := inlinePhase o env c
  let stats1 := { stats with imagesMigrated := stats.imagesMigrated + Int.ofNat ip.2.1 }
  let params := buildCardParams o env c
  let trPre := ip.2.2 ++ [Call.postCard targetBoardID params]
  match env.createCard params with
  | none => (stats1, none, trPre)
  | some n =>
    if n = 0 then (stats1, none, trPre)
    else
      let rTags := applyTagsLoop env c n c.tags stats1
      let trMove :=
        if c.columnID.isEmpty then []
        else
          match goMapLookup columnMapping c.columnID with
          | some targetCol => [Call.postTriage n targetCol]
          | none => []
      let trClose := if c.status == ("closed") then [Call.postClosure n] else []
      let trGold := if c.golden then [Call.postGoldness n] else []
      let rCom :=
        if o.includeComments then
          ({ rTags.1 with commentsCreated := rTags.1.commentsCreated + env.commentsCreated c },
            [Call.commentsTransfer n])
        else (rTags.1, ([] : List Call))
      let rSteps := if o.includeSteps then stepsLoop env c n c.steps rCom.1
        else (rCom.1, ([] : List Call))
      let rImg :=
        if o.includeImages && !c.imageURL.isEmpty then
          ((if env.imageOk c then
              { rSteps.1 with imagesMigrated := rSteps.1.imagesMigrated + 1 }
            else rSteps.1),
            [Call.headerImageTransfer n c.imageURL])
        else (rSteps.1, ([] : List Call))
      (rImg.1, some n,
        trPre ++ rTags.2 ++ trMove ++ trClose ++ trGold ++ rCom.2 ++ rSteps.2 ++ rImg.2)

/-- Column creation loop of `runMigrateBoard` (part_004 lines 147-175):
pseudo columns are skipped without a request; a failed creation issues the
POST but adds nothing to the mapping; a successful one records
`sourceColumnID -> targetColumnID` and advances the counter. -/
def createColumnsLoop (env : Env) (targetBoardID : String) :
    List SourceColumn → List (String × String) → Int →
    List (String × String) × Int × List Call
  | [], m, created => (m, created, [])
  | c :: rest, m, created =>
    if colIsReal c then
      match env.createColumn c with
      | none =>
        let r := createColumnsLoop env targetBoardID rest m created
        (r.1, r.2.1, Call.postColumn targetBoardID c.name c.color :: r.2.2)
      | some tid =>
        let r := createColumnsLoop env targetBoardID rest (goMapInsert m c.id tid) (created + 1)
        (r.1, r.2.1, Call.postColumn targetBoardID c.name c.color :: r.2.2)
    else createColumnsLoop env targetBoardID rest m created

/-- The column mapping a run builds for a given column list. -/
def columnMappingOf (env : Env) (targetBoardID : String)
    (cols : List SourceColumn) : List (String × String) :=
  (createColumnsLoop env targetBoardID cols [] 0).1

/-- Card migration loop of `runMigrateBoard` (part_004 lines 179-196): per
card, run `migrateCard`; on success record the card-mapping entry and
advance the cards-created counter, on failure print a warning and continue. -/
def migrateCardsLoop (o : MigrateOpts) (env : Env) (targetBoardID : String)
    (columnMapping : List (String × String)) :
    List SourceCard → MigrationStats → MigrationStats × List Call
  | [], stats => (stats, [])
  | c :: rest, stats =>
    let r := migrateCard o env targetBoardID columnMapping stats c
    let stats2 :=
      match r.2.1 with
      | some n =>
        { r.1 with cardMapping := goMapInsert r.1.cardMapping c.number n
                   cardsCreated := r.1.cardsCreated + 1 }
      | none => r.1
    let rRest := migrateCardsLoop o env targetBoardID columnMapping rest stats2
    (rRest.1, r.2.2 ++ rRest.2)

/-- What the dry run reports (part_004 lines 124-135 and 800-817):
`columnsToCreate` is the stderr "Columns to create" count (real columns
only), `payloadColumns` the `columns` field of the success payload (all
fetched columns), `cardsToMigrate` the card count. -/
structure DrySummary where
  boardName : String
  columnsToCreate : Nat
  payloadColumns : Nat
  cardsToMigrate : Nat
deriving DecidableEq, Repr

/-- The five fatal failure points of `runMigrateBoard`. -/
inductive FatalErr where
  | verifyFailed (e : VerifyErr)
  | fetchBoardFailed
  | fetchColumnsFailed
  | fetchCardsFailed
  | createBoardFailed
deriving DecidableEq, Repr

inductive RunResult where
  | fatal (e : FatalErr)
  | dryRun (s : DrySummary)
  | success (stats : MigrationStats)
deriving DecidableEq, Repr

/-- The four read-only calls every run issues before mutating anything. -/
def fetchTrace : List Call :=
  [Call.getIdentity, Call.getBoardCall, Call.getColumnsCall, Call.getCardsCall]

/-- Go `runMigrateBoard` (part_004 lines 66-213), from the access check on
(authentication and flag validation happen before the run and are outside
the model).  Returns the command result and the ordered call trace. -/
def runMigrateBoard (o : MigrateOpts) (env : Env) : RunResult × List Call :=
  match verifyAccountAccess env.identity o.fromAccount o.toAccount with
  | .error e => (.fatal (.verifyFailed e), [Call.getIdentity])
  | .ok _ =>
    match env.board with
    | none => (.fatal .fetchBoardFailed, [Call.getIdentity, Call.getBoardCall])
    | some boardName =>
      match env.columns with
      | none => (.fatal .fetchColumnsFailed,
          [Call.getIdentity, Call.getBoardCall, Call.getColumnsCall])
      | some cols =>
        match env.cards with
        | none => (.fatal .fetchCardsFailed, fetchTrace)
        | some cards =>
          if o.dryRun then
            (.dryRun { boardName := boardName
                       columnsToCreate := countRealColumns cols
                       payloadColumns := cols.length
                       cardsToMigrate := cards.length }, fetchTrace)
          else
            match env.createBoard boardName with
            | none => (.fatal .createBoardFailed, fetchTrace ++ [Call.postBoard boardName])
            | some bid =>
              let rCols := createColumnsLoop env bid cols [] 0
              let stats1 := { initialStats with
                boardCreated := true
                targetBoardID := bid
                targetBoardName := boardName
                columnsCreated := rCols.2.1 }
              let rCards := migrateCardsLoop o env bid rCols.1 cards stats1
              (.success rCards.1,
                fetchTrace ++ [Call.postBoard boardName] ++ rCols.2.2 ++ rCards.2)

/-! ### Claim C9: synthetic lanes bookend the real columns -/

/-- C9: for every board column listing, the synthetic lanes bookend the
real columns in the fixed board-display order `pseudoColumnsInBoardOrder`:
the triage lane and the not-now lane come first, then the server-returned
real columns in order, then the closed (Done) lane last; every synthetic
entry carries `pseudo = true`. -/
theorem c9_column_list_board_order (data : List ColumnObj) :
    columnListColumns data =
      pseudoColumnObject (pseudoColumnsInBoardOrder.get ⟨0, by decide⟩) ::
        pseudoColumnObject (pseudoColumnsInBoardOrder.get ⟨1, by decide⟩) ::
          (data ++ [pseudoColumnObject (pseudoColumnsInBoardOrder.get ⟨2, by decide⟩)]) ∧
    pseudoColumnsInBoardOrder.map pseudoColumn.Kind =
      [("triage"), ("not_now"), ("closed")] ∧
    ∀ p ∈ pseudoColumnsInBoardOrder, (pseudoColumnObject p).pseudo = true := by
  refine ⟨rfl, rfl, ?_⟩
  decide

/-! ### Claim C7: the account access verifier -/

/-- C7 counterexample: with an empty accessible-accounts list both the
source and the target account are inaccessible, yet the verifier reports
only `noSourceAccess`, so the error does not name exactly which of the two
accounts (source, target, or both) the caller lacks access to. -/
theorem c7_counterexample :
    verifyAccountAccess (some []) ("acme") ("team") =
      Except.error (VerifyErr.noSourceAccess ("acme")) ∧
    ([] : List String).any (fun sl => slugMatches sl ("team")) = false := by
  exact ⟨rfl, rfl⟩

/-- C7 (amended): the verifier compares each returned account slug against
the provided slug both after stripping a single leading slash from the
returned slug and as an exact unnormalized match; it succeeds iff both the
source and the target slug match some returned slug; on failure it names
the source account whenever the source is inaccessible (even when the
target is also inaccessible), and otherwise names the target account; an
unavailable identity response fails without naming any account. -/
theorem c7_amended (slugs : List String) (src tgt : String) :
    (∀ stored provided : String,
        slugMatches stored provided = true ↔
          (stripLeadSlash stored = provided ∨ stored = provided)) ∧
    ((∃ sl ∈ slugs, slugMatches sl src = true) →
      (∃ sl ∈ slugs, slugMatches sl tgt = true) →
      verifyAccountAccess (some slugs) src tgt = .ok ()) ∧
    ((¬ ∃ sl ∈ slugs, slugMatches sl src = true) →
      verifyAccountAccess (some slugs) src tgt = .error (.noSourceAccess src)) ∧
    ((∃ sl ∈ slugs, slugMatches sl src = true) →
      (¬ ∃ sl ∈ slugs, slugMatches sl tgt = true) →
      verifyAccountAccess (some slugs) src tgt = .error (.noTargetAccess tgt)) ∧
    verifyAccountAccess none src tgt = .error .identityUnavailable := by
  refine ⟨?_, ?_, ?_, ?_, rfl⟩
  · intro stored provided
    simp [slugMatches, Bool.or_eq_true, beq_iff_eq]
  · intro h1 h2
    have hs : slugs.any (fun sl => slugMatches sl src) = true :=
      List.any_eq_true.mpr h1
    have ht : slugs.any (fun sl => slugMatches sl tgt) = true :=
      List.any_eq_true.mpr h2
    simp [verifyAccountAccess, hs, ht]
  · intro h
    have hs : slugs.any (fun sl => slugMatches sl src) = false := by
      simpa [List.any_eq_false] using fun sl hsl hm => h ⟨sl, hsl, hm⟩
    simp [verifyAccountAccess, hs]
  · intro h1 h2
    have hs : slugs.any (fun sl => slugMatches sl src) = true :=
      List.any_eq_true.mpr h1
    have ht : slugs.any (fun sl => slugMatches sl tgt) = false := by
      simpa [List.any_eq_false] using fun sl hsl hm => h2 ⟨sl, hsl, hm⟩
    simp [verifyAccountAccess, hs, ht]

/-- C7 amended witness: a slash-prefixed stored slug matches its bare form
and verification succeeds for a concrete accessible pair. -/
theorem c7_amended_witness :
    verifyAccountAccess (some [("/6086023"), ("team")]) ("6086023") ("team") = .ok () :=
  (c7_amended [("/6086023"), ("team")] ("6086023") ("team")).2.1
    ⟨("/6086023"), by decide, by decide⟩ ⟨("team"), by decide, by decide⟩

/-! ### Claim C2: the parser returns contiguously indexed records -/

theorem rawRecords_length (html : List Char) :
    (rawRecords html).length = (findATA html).length := by
  simp [rawRecords]

theorem rawRecords_get_index (html : List Char) (i : Nat)
    (h : i < (rawRecords html).length) :
    ((rawRecords html).get ⟨i, h⟩).Index = i + 1 := by
  simp [rawRecords, List.get_eq_getElem, List.getElem_enum, extractRecord]

theorem keepAttachment_setIndex (a : GoAttachment) (k : Nat) :
    keepAttachment { a with Index := k } = keepAttachment a := rfl

theorem reindexAttachments_length (l : List GoAttachment) :
    (reindexAttachments l).length = l.length := by
  simp [reindexAttachments]

theorem reindexAttachments_get (l : List GoAttachment) (i : Nat)
    (h : i < (reindexAttachments l).length) :
    (reindexAttachments l).get ⟨i, h⟩ =
      { l.get ⟨i, by simpa [reindexAttachments] using h⟩ with Index := i + 1 } := by
  simp [reindexAttachments, List.get_eq_getElem, List.getElem_enum]

theorem reindexAttachments_eq_self {l : List GoAttachment}
    (h : ∀ (i : Nat) (hi : i < l.length), (l.get ⟨i, hi⟩).Index = i + 1) :
    reindexAttachments l = l := by
  apply List.ext_get (reindexAttachments_length l)
  intro i h1 h2
  rw [reindexAttachments_get l i h1, ← h i h2]

/-- C2: (first part, for the given fragment) when every structurally
matched attachment element yields a record with a non-empty filename or a
resolved download URL, `parseAttachments` returns exactly one record per
matched element, in document order, a total of `(findATA html).length`;
(second and third parts, for every fragment) every returned record has a
non-empty filename or download URL -- elements with neither are excluded --
and the surviving records are indexed contiguously `1..N`. -/
theorem c2_parser_indexing (html : List Char)
    (hN : ∀ a ∈ rawRecords html, keepAttachment a = true) :
    (parseAttachments html = rawRecords html ∧
      (parseAttachments html).length = (findATA html).length) ∧
    (∀ h2 : List Char, ∀ a ∈ parseAttachments h2, keepAttachment a = true) ∧
    (∀ (h2 : List Char) (i : Nat) (hi : i < (parseAttachments h2).length),
      ((parseAttachments h2).get ⟨i, hi⟩).Index = i + 1) := by
  refine ⟨?_, ?_, ?_⟩
  · have hfilter : (rawRecords html).filter keepAttachment = rawRecords html :=
      List.filter_eq_self.mpr hN
    have heq : parseAttachments html = rawRecords html := by
      unfold parseAttachments
      rw [hfilter]
      exact reindexAttachments_eq_self (rawRecords_get_index html)
    exact ⟨heq, by rw [heq, rawRecords_length]⟩
  · intro h2 a ha
    unfold parseAttachments at ha
    rcases List.mem_iff_get.mp ha with ⟨⟨i, hi⟩, hget⟩
    rw [reindexAttachments_get _ i hi] at hget
    subst hget
    rw [keepAttachment_setIndex]
    exact List.of_mem_filter (List.get_mem _ _ _)
  · intro h2 i hi
    unfold parseAttachments at hi ⊢
    rw [reindexAttachments_get _ i hi]

set_option maxRecDepth 100000 in
/-- C2 witness: a fragment with two downloadable elements parses to two
records indexed 1 and 2, and a fragment containing a mention-style element
(no filename, no link) drops it while keeping indices contiguous. -/
theorem c2_parser_indexing_witness :
    (parseAttachments (("<action-text-attachment sgid=\"A1\" filename=\"a.png\"><a href=\"/x/rails/active_storage/blobs/redirect/b1\">d</a></action-text-attachment><action-text-attachment sgid=\"A2\" filename=\"b.png\"><a href=\"/x/rails/active_storage/blobs/redirect/b2\">d</a></action-text-attachment>").toList)).length = 2 ∧
    ∀ (i : Nat) (hi : i < (parseAttachments (("<p>hi</p><action-text-attachment sgid=\"M1\" content-type=\"mention\"></action-text-attachment><action-text-attachment sgid=\"A2\" filename=\"b.pdf\"><a href=\"/f/doc.pdf?disposition=attachment\">x</a></action-text-attachment>").toList)).length),
      ((parseAttachments (("<p>hi</p><action-text-attachment sgid=\"M1\" content-type=\"mention\"></action-text-attachment><action-text-attachment sgid=\"A2\" filename=\"b.pdf\"><a href=\"/f/doc.pdf?disposition=attachment\">x</a></action-text-attachment>").toList)).get ⟨i, hi⟩).Index = i + 1 := by
  constructor
  · have h := (c2_parser_indexing (("<action-text-attachment sgid=\"A1\" filename=\"a.png\"><a href=\"/x/rails/active_storage/blobs/redirect/b1\">d</a></action-text-attachment><action-text-attachment sgid=\"A2\" filename=\"b.png\"><a href=\"/x/rails/active_storage/blobs/redirect/b2\">d</a></action-text-attachment>").toList) (by decide)).1.2
    rw [h]
    decide
  · exact fun i hi => (c2_parser_indexing [] (by decide)).2.2 _ i hi

/-! ### Claim C8: download-URL resolution -/

theorem scanDispo_some {content v : List Char} (h : scanDispo content = some v) :
    dispoLit.isSuffixOf v = true ∧ dispoLit.length < v.length := by
  induction content with
  | nil => simp [scanDispo] at h
  | cons c t ih =>
    simp only [scanDispo] at h
    by_cases hp : hrefPat.isPrefixOf (c :: t) = true
    · simp only [hp, if_true] at h
      split at h
      · rename_i hcond
        rw [Bool.and_eq_true, Bool.and_eq_true] at hcond
        obtain ⟨⟨-, hsuf⟩, hlen⟩ := hcond
        obtain rfl : _ = v := by simpa using h
        exact ⟨hsuf, of_decide_eq_true hlen⟩
      · exact ih h
    · rw [Bool.not_eq_true] at hp
      simp only [hp, Bool.false_eq_true, if_false] at h
      exact ih h

/-- C8 counterexample: an anchor whose href query string contains
`disposition=attachment` among other parameters (here `?a=1&disposition=attachment`)
is not selected by the resolver at all -- the code requires the href to end
in `?disposition=attachment` -- so no download URL is resolved, refuting
both the "query string contains" preference and the "returned unchanged"
clause of the claim. -/
theorem c8_counterexample :
    resolveDownloadURL
        (("<a href=\"/files/doc.pdf?a=1&disposition=attachment\">x</a>").toList) = [] ∧
    containsSub (("/files/doc.pdf?a=1&disposition=attachment").toList)
      (("disposition=attachment").toList) = true := by
  exact ⟨by decide, by decide⟩

/-- C8 (amended): the resolver prefers an anchor whose href query string is
exactly `disposition=attachment` -- the href must end in
`?disposition=attachment` with at least one character before it -- and
returns such a URL unchanged; when no such anchor exists and a storage-blob
redirect path is found, the path is used with `?disposition=attachment`
appended when it carries no `?`, and unmodified when it already carries
one; with neither link shape, no download URL is resolved. -/
theorem c8_amended (content : List Char) :
    (∀ v, scanDispo content = some v →
      resolveDownloadURL content = v ∧ dispoLit.isSuffixOf v = true ∧
        dispoLit.length < v.length) ∧
    (∀ v, scanDispo content = none → scanBlob content = some v →
      v.contains '?' = false → resolveDownloadURL content = v ++ dispoLit) ∧
    (∀ v, scanDispo content = none → scanBlob content = some v →
      v.contains '?' = true → resolveDownloadURL content = v) ∧
    (scanDispo content = none → scanBlob content = none →
      resolveDownloadURL content = []) := by
  refine ⟨?_, ?_, ?_, ?_⟩
  · intro v hv
    exact ⟨by simp [resolveDownloadURL, hv], (scanDispo_some hv).1, (scanDispo_some hv).2⟩
  · intro v h1 h2 h3
    simp only [resolveDownloadURL, h1, h2, h3, Bool.false_eq_true, if_false]
  · intro v h1 h2 h3
    simp only [resolveDownloadURL, h1, h2, h3, if_true]
  · intro h1 h2
    simp [resolveDownloadURL, h1, h2]

set_option maxRecDepth 100000 in
/-- C8 amended witness: an exactly-suffixed anchor URL is returned
unchanged, and a query-less blob redirect path gets `?disposition=attachment`
appended. -/
theorem c8_amended_witness :
    resolveDownloadURL (("<a href=\"/f/doc.pdf?disposition=attachment\">x</a>").toList) =
      (("/f/doc.pdf?disposition=attachment").toList) ∧
    resolveDownloadURL (("<a href=\"/acc/rails/active_storage/blobs/redirect/k1\">x</a>").toList) =
      (("/acc/rails/active_storage/blobs/redirect/k1").toList) ++ dispoLit := by
  constructor
  · exact ((c8_amended _).1 _ (by decide)).1
  · exact (c8_amended _).2.1 _ (by decide) (by decide) (by decide)

/-! ### Claim C5: sgid substitution in inline-attachment migration -/

/-- Environment for the C5 scenarios: downloads succeed and every upload
returns the attachable sgid `NN`; the migration-orchestrator fields are
unused by `migrateInlineAttachments`. -/
def c5Env : Env :=
  { identity := none, board := none, columns := none, cards := none
    createBoard := fun _ => none, createColumn := fun _ => none
    createCard := fun _ => none
    attDownload := fun _ => true
    attUpload := fun _ => some { attachableSgid := ("NN").toList, signedId := [] }
    tagOk := fun _ _ => false, moveOk := fun _ => false, closeOk := fun _ => false
    goldenOk := fun _ => false, commentsCreated := fun _ => 0
    stepOk := fun _ _ => false, imageOk := fun _ => false }

/-- A body in which the sgid `SS` of its single attachment element occurs
twice: once as plain text before the element and once as the element's
`sgid` attribute. -/
def c5Html : List Char :=
  ("SS<action-text-attachment sgid=\"SS\" filename=\"a.png\"><a href=\"/x/rails/active_storage/blobs/redirect/b1\">d</a></action-text-attachment>").toList

set_option maxRecDepth 400000 in
/-- C5 counterexample: the old sgid `SS` of the successfully migrated
attachment occurs twice in the HTML body, but the code substitutes only the
first occurrence (`strings.Replace` with count 1): the result still
contains `SS` (the new sgid `NN` shares no substring with it), whereas
substitution "exactly once per occurrence" would leave none; the second
conjunct pins down the exact output, whose `sgid` attribute is untouched. -/
theorem c5_counterexample :
    containsSub (migrateInlineAttachments c5Env c5Html).1 (("SS").toList) = true ∧
    (migrateInlineAttachments c5Env c5Html).1 =
      (("NN<action-text-attachment sgid=\"SS\" filename=\"a.png\"><a href=\"/x/rails/active_storage/blobs/redirect/b1\">d</a></action-text-attachment>").toList) ∧
    (migrateInlineAttachments c5Env c5Html).2.1 = 1 := by
  exact ⟨by decide, by decide, by decide⟩

/-- C5 (amended): for an inline attachment that is successfully downloaded
and re-uploaded, the old sgid value is substituted with the new sgid
exactly once -- at its first occurrence in the HTML body -- and every
character outside that single replaced occurrence is left unchanged
(stated for a body whose parse yields exactly that attachment). -/
theorem c5_amended (env : Env) (html : List Char) (a : GoAttachment)
    (u : UploadResp) (b aft : List Char)
    (hparse : parseAttachments html = [a])
    (hurl : a.DownloadURL.isEmpty = false)
    (hdl : env.attDownload a = true)
    (hup : env.attUpload a = some u)
    (hnew : (newSgidOf u).isEmpty = false)
    (hsgid : a.SGID.isEmpty = false)
    (hsplit : splitOnFirst a.SGID html = some (b, aft)) :
    (migrateInlineAttachments env html).1 = b ++ newSgidOf u ++ aft ∧
    (migrateInlineAttachments env html).2.1 = 1 ∧
    html = b ++ a.SGID ++ aft ∧
    (∀ b2 a2, html = b2 ++ a.SGID ++ a2 → b.length ≤ b2.length) := by
  have hrep : goReplace1 html a.SGID (newSgidOf u) = b ++ newSgidOf u ++ aft :=
    goReplace1_eq_of_split _ (by simp [hsgid]) hsplit
  refine ⟨?_, ?_, splitOnFirst_sound hsplit, splitOnFirst_min hsplit⟩
  · unfold migrateInlineAttachments
    rw [hparse]
    simp [inlineLoop, hurl, hdl, hup, hnew, hsgid, hrep]
  · unfold migrateInlineAttachments
    rw [hparse]
    simp [inlineLoop, hurl, hdl, hup, hnew, hsgid]

/-- Single-attachment body for the C5 amended witness. -/
def c5wHtml : List Char :=
  ("<action-text-attachment sgid=\"S1\" filename=\"a.png\"><a href=\"/x/rails/active_storage/blobs/redirect/b1\">d</a></action-text-attachment>").toList

/-- The record `parseAttachments c5wHtml` produces. -/
def c5wAtt : GoAttachment :=
  { Index := 1, Filename := ("a.png").toList, ContentType := []
    Filesize := 0, Width := 0, Height := 0
    DownloadURL := ("/x/rails/active_storage/blobs/redirect/b1?disposition=attachment").toList
    SGID := ("S1").toList }

def c5Upload : UploadResp := { attachableSgid := ("NN").toList, signedId := [] }

set_option maxRecDepth 400000 in
/-- C5 amended witness: a concrete single-attachment body where the first
(and only) occurrence of `S1` is replaced by `NN` and everything else is
untouched. -/
theorem c5_amended_witness :
    (migrateInlineAttachments c5Env c5wHtml).1 =
      (("<action-text-attachment sgid=\"").toList) ++ (("NN").toList) ++
        (("\" filename=\"a.png\"><a href=\"/x/rails/active_storage/blobs/redirect/b1\">d</a></action-text-attachment>").toList) ∧
    (migrateInlineAttachments c5Env c5wHtml).2.1 = 1 := by
  have h := c5_amended c5Env c5wHtml c5wAtt c5Upload
    (("<action-text-attachment sgid=\"").toList)
    (("\" filename=\"a.png\"><a href=\"/x/rails/active_storage/blobs/redirect/b1\">d</a></action-text-attachment>").toList)
    (by decide) (by decide) (by decide) (by decide) (by decide) (by decide) (by decide)
  exact ⟨h.1, h.2.1⟩

/-! ### Claim C4: dry run -/

theorem countRealColumns_eq_filter (cols : List SourceColumn) :
    countRealColumns cols = (cols.filter colIsReal).length := by
  induction cols with
  | nil => rfl
  | cons c r ih =>
    by_cases h : colIsReal c = true
    · simp [countRealColumns, List.filter_cons, h, ih]
      omega
    · rw [Bool.not_eq_true] at h
      simp [countRealColumns, List.filter_cons, h, ih]

/-- C4: a dry run against a board with `B` real (non-pseudo) columns and
`C` cards performs the access check and the board, column and card fetches,
reports columns to create `= B` (the count of real columns only, with the
raw column total only in the payload) and cards to migrate `= C`, and
issues zero mutating calls: the trace is exactly the four read-only GETs. -/
theorem c4_dry_run (o : MigrateOpts) (env : Env) (boardName : String)
    (cols : List SourceColumn) (cards : List SourceCard)
    (hdry : o.dryRun = true)
    (hver : verifyAccountAccess env.identity o.fromAccount o.toAccount = .ok ())
    (hb : env.board = some boardName)
    (hc : env.columns = some cols)
    (hk : env.cards = some cards) :
    runMigrateBoard o env =
      (.dryRun { boardName := boardName
                 columnsToCreate := countRealColumns cols
                 payloadColumns := cols.length
                 cardsToMigrate := cards.length }, fetchTrace) ∧
    countRealColumns cols = (cols.filter colIsReal).length ∧
    ∀ call ∈ fetchTrace, call.isMutating = false := by
  refine ⟨?_, countRealColumns_eq_filter cols, by decide⟩
  simp [runMigrateBoard, hver, hb, hc, hk, hdry]

def c4Cols : List SourceColumn :=
  [{ kind := some ("real"), pseudo := some false, name := ("Backlog"),
     color := ("red"), id := ("c1") },
   { kind := some ("not_now"), pseudo := some true, name := ("Maybe?"),
     color := (""), id := ("p1") }]

def c4Cards : List SourceCard :=
  [{ number := 7, title := ("A"), description := [], descriptionHTML := []
     createdAt := (""), tags := [], columnID := ("c1"), status := ("open")
     golden := false, imageURL := (""), steps := [] }]

def c4Env : Env :=
  { identity := some [("a"), ("b")], board := some ("Sprint")
    columns := some c4Cols, cards := some c4Cards
    createBoard := fun _ => some ("X"), createColumn := fun _ => none
    createCard := fun _ => none
    attDownload := fun _ => false, attUpload := fun _ => none
    tagOk := fun _ _ => false, moveOk := fun _ => false, closeOk := fun _ => false
    goldenOk := fun _ => false, commentsCreated := fun _ => 0
    stepOk := fun _ _ => false, imageOk := fun _ => false }

def c4Opts : MigrateOpts :=
  { fromAccount := ("a"), toAccount := ("b"), includeComments := false
    includeSteps := false, includeImages := false, dryRun := true }

/-- C4 witness: one real and one pseudo column, one card; the dry run
reports one column to create and one card, over a read-only trace. -/
theorem c4_dry_run_witness :
    runMigrateBoard c4Opts c4Env =
      (.dryRun { boardName := ("Sprint"), columnsToCreate := 1
                 payloadColumns := 2, cardsToMigrate := 1 }, fetchTrace) := by
  have h := c4_dry_run c4Opts c4Env ("Sprint") c4Cols c4Cards rfl rfl rfl rfl rfl
  exact h.1

/-! ### Go-map and loop lemmas -/

theorem goMapLookup_map_overwrite {α β : Type} [DecidableEq α]
    (m : List (α × β)) (k k2 : α) (v : β) (h : k2 ≠ k) :
    goMapLookup (m.map (fun p => if p.1 = k then (k, v) else p)) k2 =
      goMapLookup m k2 := by
  induction m with
  | nil => rfl
  | cons p r ih =>
    by_cases hp : p.1 = k
    · have h1 : ¬ (k = k2) := fun hh => h hh.symm
      have h2 : ¬ (p.1 = k2) := by rw [hp]; exact h1
      simp [goMapLookup, hp, h1, h2, ih]
    · by_cases hq : p.1 = k2 <;> simp [goMapLookup, hp, hq, h, ih]

theorem goMapLookup_append_single {α β : Type} [DecidableEq α]
    (m : List (α × β)) (k k2 : α) (v : β) (h : k2 ≠ k) :
    goMapLookup (m ++ [(k, v)]) k2 = goMapLookup m k2 := by
  induction m with
  | nil =>
    have h1 : ¬ (k = k2) := fun hh => h hh.symm
    simp [goMapLookup, h1]
  | cons p r ih =>
    by_cases hq : p.1 = k2 <;> simp [goMapLookup, hq, ih]

theorem goMapLookup_insert_ne {α β : Type} [DecidableEq α]
    (m : List (α × β)) (k k2 : α) (v : β) (h : k2 ≠ k) :
    goMapLookup (goMapInsert m k v) k2 = goMapLookup m k2 := by
  unfold goMapInsert
  split
  · exact goMapLookup_map_overwrite m k k2 v h
  · exact goMapLookup_append_single m k k2 v h

theorem goMapInsert_not_present {α β : Type} [DecidableEq α]
    (m : List (α × β)) (k : α) (v : β) (h : ∀ p ∈ m, p.1 ≠ k) :
    goMapInsert m k v = m ++ [(k, v)] := by
  have hany : m.any (fun p => decide (p.1 = k)) = false := by
    rw [List.any_eq_false]
    intro p hp
    simpa using h p hp
  simp [goMapInsert, hany]

theorem createColumnsLoop_lookup_notmem (env : Env) (bid : String) (cid : String) :
    ∀ (cols : List SourceColumn) (m : List (String × String)) (created : Int),
      cid ∉ cols.map SourceColumn.id →
      goMapLookup (createColumnsLoop env bid cols m created).1 cid =
        goMapLookup m cid := by
  intro cols
  induction cols with
  | nil => intro m created _; rfl
  | cons d rest ih =>
    intro m created h
    simp only [List.map_cons, List.mem_cons, not_or] at h
    obtain ⟨h1, h2⟩ := h
    by_cases hr : colIsReal d = true
    · rcases hcc : env.createColumn d with _ | tid
      · simp only [createColumnsLoop, hr, if_true, hcc]
        exact ih m created h2
      · simp only [createColumnsLoop, hr, if_true, hcc]
        rw [ih (goMapInsert m d.id tid) (created + 1) h2]
        exact goMapLookup_insert_ne m d.id cid tid h1
    · rw [Bool.not_eq_true] at hr
      simp only [createColumnsLoop, hr, Bool.false_eq_true, if_false]
      exact ih m created h2

theorem createColumnsLoop_failed_absent (env : Env) (bid : String)
    (c : SourceColumn) :
    ∀ (cols : List SourceColumn) (m : List (String × String)) (created : Int),
      c ∈ cols → colIsReal c = true → env.createColumn c = none →
      (cols.map SourceColumn.id).Nodup → goMapLookup m c.id = none →
      goMapLookup (createColumnsLoop env bid cols m created).1 c.id = none := by
  intro cols
  induction cols with
  | nil => intro m created hmem; exact absurd hmem (List.not_mem_nil c)
  | cons d rest ih =>
    intro m created hmem hreal hfail hnodup hm
    rw [List.map_cons, List.nodup_cons] at hnodup
    rcases List.mem_cons.mp hmem with rfl | hmem'
    · simp only [createColumnsLoop, hreal, if_true, hfail]
      rw [createColumnsLoop_lookup_notmem env bid c.id rest m created hnodup.1]
      exact hm
    · have hdc : c.id ≠ d.id := by
        intro hh
        exact hnodup.1 (hh ▸ List.mem_map_of_mem SourceColumn.id hmem')
      by_cases hr : colIsReal d = true
      · rcases hcc : env.createColumn d with _ | tid
        · simp only [createColumnsLoop, hr, if_true, hcc]
          exact ih m created hmem' hreal hfail hnodup.2 hm
        · simp only [createColumnsLoop, hr, if_true, hcc]
          apply ih _ _ hmem' hreal hfail hnodup.2
          rw [goMapLookup_insert_ne m d.id c.id tid hdc]
          exact hm
      · rw [Bool.not_eq_true] at hr
        simp only [createColumnsLoop, hr, Bool.false_eq_true, if_false]
        exact ih m created hmem' hreal hfail hnodup.2 hm

/-! ### Trace-shape lemmas for `migrateCard` -/

theorem inlineLoop_trace_shape (env : Env) :
    ∀ (atts : List GoAttachment) (res : List Char) (cnt : Nat) (call : Call),
      call ∈ (inlineLoop env atts res cnt).2.2 →
      (∃ url, call = Call.downloadAttachment url) ∨
        ∃ i, call = Call.uploadAttachment i := by
  intro atts
  induction atts with
  | nil => intro res cnt call h; simp [inlineLoop] at h
  | cons a rest ih =>
    intro res cnt call h
    by_cases h1 : a.DownloadURL.isEmpty = true
    · simp only [inlineLoop, h1, if_true] at h
      exact ih res cnt call h
    · rw [Bool.not_eq_true] at h1
      by_cases h2 : env.attDownload a = true
      · rcases h3 : env.attUpload a with _ | u
        · simp only [inlineLoop, h1, Bool.false_eq_true, if_false, h2,
            Bool.not_true, h3] at h
          rcases List.mem_cons.mp h with rfl | h'
          · exact Or.inl ⟨a.DownloadURL, rfl⟩
          rcases List.mem_cons.mp h' with rfl | h''
          · exact Or.inr ⟨a.Index, rfl⟩
          · exact ih _ _ call h''
        · by_cases h4 : ((newSgidOf u).isEmpty || a.SGID.isEmpty) = true
          · simp only [inlineLoop, h1, Bool.false_eq_true, if_false, h2,
              Bool.not_true, h3, h4, if_true] at h
            rcases List.mem_cons.mp h with rfl | h'
            · exact Or.inl ⟨a.DownloadURL, rfl⟩
            rcases List.mem_cons.mp h' with rfl | h''
            · exact Or.inr ⟨a.Index, rfl⟩
            · exact ih _ _ call h''
          · rw [Bool.not_eq_true] at h4
            simp only [inlineLoop, h1, Bool.false_eq_true, if_false, h2,
              Bool.not_true, h3, h4, Bool.false_eq_true, if_false] at h
            rcases List.mem_cons.mp h with rfl | h'
            · exact Or.inl ⟨a.DownloadURL, rfl⟩
            rcases List.mem_cons.mp h' with rfl | h''
            · exact Or.inr ⟨a.Index, rfl⟩
            · exact ih _ _ call h''
      · rw [Bool.not_eq_true] at h2
        simp only [inlineLoop, h1, Bool.false_eq_true, if_false, h2,
          Bool.not_false] at h
        rcases List.mem_cons.mp h with rfl | h'
        · exact Or.inl ⟨a.DownloadURL, rfl⟩
        · exact ih _ _ call h'

theorem applyTagsLoop_trace_shape (env : Env) (c : SourceCard) (n : Int) :
    ∀ (tags : List String) (stats : MigrationStats) (call : Call),
      call ∈ (applyTagsLoop env c n tags stats).2 →
      ∃ tag, call = Call.postTagging n tag := by
  intro tags
  induction tags with
  | nil => intro stats call h; simp [applyTagsLoop] at h
  | cons tag rest ih =>
    intro stats call h
    simp only [applyTagsLoop] at h
    rcases List.mem_cons.mp h with rfl | h'
    · exact ⟨tag, rfl⟩
    · exact ih _ call h'

theorem stepsLoop_trace_shape (env : Env) (c : SourceCard) (n : Int) :
    ∀ (steps : List GoStep) (stats : MigrationStats) (call : Call),
      call ∈ (stepsLoop env c n steps stats).2 →
      ∃ content, call = Call.postStep n content := by
  intro steps
  induction steps with
  | nil => intro stats call h; simp [stepsLoop] at h
  | cons st rest ih =>
    intro stats call h
    by_cases h1 : st.content.isEmpty = true
    · simp only [stepsLoop, h1, if_true] at h
      exact ih _ call h
    · rw [Bool.not_eq_true] at h1
      simp only [stepsLoop, h1, Bool.false_eq_true, if_false] at h
      rcases List.mem_cons.mp h with rfl | h'
      · exact ⟨st.content, rfl⟩
      · exact ih _ call h'

theorem migrateCard_outcome (o : MigrateOpts) (env : Env) (bid : String)
    (mapping : List (String × String)) (stats : MigrationStats) (c : SourceCard) :
    (migrateCard o env bid mapping stats c).2.1 = cardOutcome o env c := by
  simp only [migrateCard, cardOutcome]
  rcases hcc : env.createCard (buildCardParams o env c) with _ | n
  · rfl
  · by_cases hn : n = 0 <;> simp [hn]

theorem applyTagsLoop_stats_eq (env : Env) (c : SourceCard) (n : Int) :
    ∀ (tags : List String) (s : MigrationStats),
      ∃ k : Int, (applyTagsLoop env c n tags s).1 = { s with tagsApplied := k } := by
  intro tags
  induction tags with
  | nil => intro s; exact ⟨s.tagsApplied, rfl⟩
  | cons tag rest ih =>
    intro s
    by_cases h : env.tagOk c tag = true
    · obtain ⟨k, hk⟩ := ih { s with tagsApplied := s.tagsApplied + 1 }
      exact ⟨k, by simp only [applyTagsLoop, h, if_true]; exact hk⟩
    · rw [Bool.not_eq_true] at h
      obtain ⟨k, hk⟩ := ih s
      refine ⟨k, ?_⟩
      simp only [applyTagsLoop, h, Bool.false_eq_true, if_false]
      exact hk

theorem stepsLoop_stats_eq (env : Env) (c : SourceCard) (n : Int) :
    ∀ (steps : List GoStep) (s : MigrationStats),
      ∃ k : Int, (stepsLoop env c n steps s).1 = { s with stepsCreated := k } := by
  intro steps
  induction steps with
  | nil => intro s; exact ⟨s.stepsCreated, rfl⟩
  | cons st rest ih =>
    intro s
    by_cases h0 : st.content.isEmpty = true
    · obtain ⟨k, hk⟩ := ih s
      exact ⟨k, by simp only [stepsLoop, h0, if_true]; exact hk⟩
    · rw [Bool.not_eq_true] at h0
      by_cases h : env.stepOk c st.content = true
      · obtain ⟨k, hk⟩ := ih { s with stepsCreated := s.stepsCreated + 1 }
        refine ⟨k, ?_⟩
        simp only [stepsLoop, h0, Bool.false_eq_true, if_false, h, if_true]
        exact hk
      · rw [Bool.not_eq_true] at h
        obtain ⟨k, hk⟩ := ih s
        refine ⟨k, ?_⟩
        simp only [stepsLoop, h0, Bool.false_eq_true, if_false, h]
        exact hk


theorem applyTagsLoop_cardMapping (env : Env) (c : SourceCard) (n : Int)
    (tags : List String) (s : MigrationStats) :
    (applyTagsLoop env c n tags s).1.cardMapping = s.cardMapping := by
  obtain ⟨k, hk⟩ := applyTagsLoop_stats_eq env c n tags s
  rw [hk]

theorem applyTagsLoop_cardsCreated (env : Env) (c : SourceCard) (n : Int)
    (tags : List String) (s : MigrationStats) :
    (applyTagsLoop env c n tags s).1.cardsCreated = s.cardsCreated := by
  obtain ⟨k, hk⟩ := applyTagsLoop_stats_eq env c n tags s
  rw [hk]

theorem applyTagsLoop_imagesMigrated (env : Env) (c : SourceCard) (n : Int)
    (tags : List String) (s : MigrationStats) :
    (applyTagsLoop env c n tags s).1.imagesMigrated = s.imagesMigrated := by
  obtain ⟨k, hk⟩ := applyTagsLoop_stats_eq env c n tags s
  rw [hk]

theorem stepsLoop_cardMapping (env : Env) (c : SourceCard) (n : Int)
    (steps : List GoStep) (s : MigrationStats) :
    (stepsLoop env c n steps s).1.cardMapping = s.cardMapping := by
  obtain ⟨k, hk⟩ := stepsLoop_stats_eq env c n steps s
  rw [hk]

theorem stepsLoop_cardsCreated (env : Env) (c : SourceCard) (n : Int)
    (steps : List GoStep) (s : MigrationStats) :
    (stepsLoop env c n steps s).1.cardsCreated = s.cardsCreated := by
  obtain ⟨k, hk⟩ := stepsLoop_stats_eq env c n steps s
  rw [hk]

theorem stepsLoop_imagesMigrated (env : Env) (c : SourceCard) (n : Int)
    (steps : List GoStep) (s : MigrationStats) :
    (stepsLoop env c n steps s).1.imagesMigrated = s.imagesMigrated := by
  obtain ⟨k, hk⟩ := stepsLoop_stats_eq env c n steps s
  rw [hk]

theorem migrateCard_mapping_fields (o : MigrateOpts) (env : Env) (bid : String)
    (mapping : List (String × String)) (stats : MigrationStats) (c : SourceCard) :
    (migrateCard o env bid mapping stats c).1.cardMapping = stats.cardMapping ∧
    (migrateCard o env bid mapping stats c).1.cardsCreated = stats.cardsCreated := by
  simp only [migrateCard]
  rcases hcc : env.createCard (buildCardParams o env c) with _ | n
  · exact ⟨rfl, rfl⟩
  · by_cases hn : n = 0
    · simp [hn]
    · simp only [if_neg hn]
      constructor
      · split_ifs <;>
          simp [applyTagsLoop_cardMapping, stepsLoop_cardMapping]
      · split_ifs <;>
          simp [applyTagsLoop_cardsCreated, stepsLoop_cardsCreated]

theorem mem_ite_cons {p : Prop} [Decidable p] {x call : Call}
    (h : call ∈ (if p then [x] else [])) : call = x := by
  split at h
  · simpa using h
  · simp at h

theorem mem_ite_list {p : Prop} [Decidable p] {l : List Call} {call : Call}
    (h : call ∈ (if p then l else [])) : call ∈ l := by
  split at h
  · exact h
  · simp at h

theorem inlinePhase_trace_shape (o : MigrateOpts) (env : Env) (c : SourceCard) :
    ∀ call ∈ (inlinePhase o env c).2.2,
      (∃ url, call = Call.downloadAttachment url) ∨
        ∃ i, call = Call.uploadAttachment i := by
  intro call h
  unfold inlinePhase at h
  split at h
  · simp only [migrateInlineAttachments] at h
    exact inlineLoop_trace_shape env _ _ _ call h
  · simp at h

/-- Every call `migrateCard` issues is one of: an attachment download or
upload, the card-creation POST with this card's parameters, a tagging POST,
a triage POST for the column the mapping resolves this card's source column
to, a closure, goldness or step POST, the comment-migration bundle, or the
header-image bundle for this card's image URL. -/
theorem migrateCard_trace_shape (o : MigrateOpts) (env : Env) (bid : String)
    (mapping : List (String × String)) (stats : MigrationStats) (c : SourceCard) :
    ∀ call ∈ (migrateCard o env bid mapping stats c).2.2,
      (∃ url, call = Call.downloadAttachment url) ∨
      (∃ i, call = Call.uploadAttachment i) ∨
      call = Call.postCard bid (buildCardParams o env c) ∨
      (∃ n tag, call = Call.postTagging n tag) ∨
      (∃ n tcol, call = Call.postTriage n tcol ∧
          goMapLookup mapping c.columnID = some tcol) ∨
      (∃ n, call = Call.postClosure n) ∨
      (∃ n, call = Call.postGoldness n) ∨
      (∃ n, call = Call.commentsTransfer n) ∨
      (∃ n content, call = Call.postStep n content) ∨
      (∃ n, call = Call.headerImageTransfer n c.imageURL) := by
  have hpre : ∀ call ∈ (inlinePhase o env c).2.2 ++
      [Call.postCard bid (buildCardParams o env c)],
      (∃ url, call = Call.downloadAttachment url) ∨
      (∃ i, call = Call.uploadAttachment i) ∨
      call = Call.postCard bid (buildCardParams o env c) := by
    intro call h
    rcases List.mem_append.mp h with h1 | h2
    · rcases inlinePhase_trace_shape o env c call h1 with h' | h'
      · exact Or.inl h'
      · exact Or.inr (Or.inl h')
    · exact Or.inr (Or.inr (by simpa using h2))
  intro call hc
  simp only [migrateCard] at hc
  rcases hcc : env.createCard (buildCardParams o env c) with _ | n
  · simp only [hcc] at hc
    rcases hpre call hc with h | h | h
    · exact Or.inl h
    · exact Or.inr (Or.inl h)
    · exact Or.inr (Or.inr (Or.inl h))
  · simp only [hcc] at hc
    by_cases hn : n = 0
    · simp only [if_pos hn] at hc
      rcases hpre call hc with h | h | h
      · exact Or.inl h
      · exact Or.inr (Or.inl h)
      · exact Or.inr (Or.inr (Or.inl h))
    · simp only [if_neg hn] at hc
      simp only [List.mem_append] at hc
      rcases hc with ((((((h1 | h2) | h3) | h4) | h5) | h6) | h7) | h8
      · rcases h1 with h1 | h1
        · rcases inlinePhase_trace_shape o env c call h1 with h | h
          · exact Or.inl h
          · exact Or.inr (Or.inl h)
        · exact Or.inr (Or.inr (Or.inl (by simpa using h1)))
      · obtain ⟨tag, rfl⟩ := applyTagsLoop_trace_shape env c n c.tags _ call h2
        exact Or.inr (Or.inr (Or.inr (Or.inl ⟨n, tag, rfl⟩)))
      · rcases hlk : goMapLookup mapping c.columnID with _ | tcol
        · rw [hlk] at h3
          split at h3 <;> simp at h3
        · rw [hlk] at h3
          split at h3
          · simp at h3
          · have := mem_ite_cons (p := True) (x := Call.postTriage n tcol)
              (by simpa using h3)
            subst this
            exact Or.inr (Or.inr (Or.inr (Or.inr (Or.inl ⟨n, tcol, rfl, rfl⟩))))
      · have := mem_ite_cons h4
        subst this
        exact Or.inr (Or.inr (Or.inr (Or.inr (Or.inr (Or.inl ⟨n, rfl⟩)))))
      · have := mem_ite_cons h5
        subst this
        exact Or.inr (Or.inr (Or.inr (Or.inr (Or.inr (Or.inr (Or.inl ⟨n, rfl⟩))))))
      · rw [apply_ite Prod.snd] at h6
        have := mem_ite_cons h6
        subst this
        exact Or.inr (Or.inr (Or.inr (Or.inr (Or.inr (Or.inr (Or.inr (Or.inl ⟨n, rfl⟩)))))))
      · rw [apply_ite Prod.snd] at h7
        have h7' := mem_ite_list h7
        obtain ⟨content, rfl⟩ := stepsLoop_trace_shape env c n c.steps _ call h7'
        exact Or.inr (Or.inr (Or.inr (Or.inr (Or.inr (Or.inr (Or.inr (Or.inr
          (Or.inl ⟨n, content, rfl⟩))))))))
      · rw [apply_ite Prod.snd] at h8
        have := mem_ite_cons h8
        subst this
        exact Or.inr (Or.inr (Or.inr (Or.inr (Or.inr (Or.inr (Or.inr (Or.inr
          (Or.inr ⟨n, rfl⟩))))))))

theorem migrateCard_no_triage (o : MigrateOpts) (env : Env) (bid : String)
    (mapping : List (String × String)) (stats : MigrationStats) (c : SourceCard)
    (h : goMapLookup mapping c.columnID = none) :
    ∀ call ∈ (migrateCard o env bid mapping stats c).2.2, call.isTriage = false := by
  intro call hc
  rcases migrateCard_trace_shape o env bid mapping stats c call hc with
    ⟨url, rfl⟩ | ⟨i, rfl⟩ | rfl | ⟨n, tag, rfl⟩ | ⟨n, tcol, rfl, hlk⟩ |
    ⟨n, rfl⟩ | ⟨n, rfl⟩ | ⟨n, rfl⟩ | ⟨n, content, rfl⟩ | ⟨n, rfl⟩
  · rfl
  · rfl
  · rfl
  · rfl
  · rw [h] at hlk
    exact absurd hlk (by simp)
  · rfl
  · rfl
  · rfl
  · rfl
  · rfl

theorem migrateCard_postCard_mem (o : MigrateOpts) (env : Env) (bid : String)
    (mapping : List (String × String)) (stats : MigrationStats) (c : SourceCard) :
    Call.postCard bid (buildCardParams o env c) ∈
      (migrateCard o env bid mapping stats c).2.2 := by
  simp only [migrateCard]
  rcases hcc : env.createCard (buildCardParams o env c) with _ | n
  · simp
  · by_cases hn : n = 0
    · simp [hn]
    · simp [hn, List.mem_append]

theorem migrateCard_postCard_unique (o : MigrateOpts) (env : Env) (bid : String)
    (mapping : List (String × String)) (stats : MigrationStats) (c : SourceCard)
    (bid2 : String) (p : CardParams)
    (h : Call.postCard bid2 p ∈ (migrateCard o env bid mapping stats c).2.2) :
    bid2 = bid ∧ p = buildCardParams o env c := by
  rcases migrateCard_trace_shape o env bid mapping stats c _ h with
    ⟨url, heq⟩ | ⟨i, heq⟩ | heq | ⟨n, tag, heq⟩ | ⟨n, tcol, heq, hlk⟩ |
    ⟨n, heq⟩ | ⟨n, heq⟩ | ⟨n, heq⟩ | ⟨n, content, heq⟩ | ⟨n, heq⟩
  · exact absurd heq (by simp)
  · exact absurd heq (by simp)
  · simpa using heq
  · exact absurd heq (by simp)
  · exact absurd heq (by simp)
  · exact absurd heq (by simp)
  · exact absurd heq (by simp)
  · exact absurd heq (by simp)
  · exact absurd heq (by simp)
  · exact absurd heq (by simp)

def RunResult.isSuccess : RunResult → Bool
  | .success _ => true
  | _ => false

/-! ### Claim C3: fatal versus non-fatal failures -/

/-- C3: in a non-dry-run migration exactly the access-verification failure,
the three source fetch failures and the target board-creation failure abort
the run (each with the call trace it had issued so far), and when all five
succeed the run always completes with a success result; a column-creation
failure is individually non-fatal: the run still succeeds, the failed
column is absent from the column mapping (given distinct column ids), and
every card whose source column is that column triggers no triage (column
placement) call at all. -/
theorem c3_fatal_boundaries (o : MigrateOpts) (env : Env) :
    (∀ e, verifyAccountAccess env.identity o.fromAccount o.toAccount = .error e →
      runMigrateBoard o env = (.fatal (.verifyFailed e), [Call.getIdentity])) ∧
    (verifyAccountAccess env.identity o.fromAccount o.toAccount = .ok () →
      env.board = none →
      runMigrateBoard o env =
        (.fatal .fetchBoardFailed, [Call.getIdentity, Call.getBoardCall])) ∧
    (∀ bn, verifyAccountAccess env.identity o.fromAccount o.toAccount = .ok () →
      env.board = some bn → env.columns = none →
      runMigrateBoard o env = (.fatal .fetchColumnsFailed,
        [Call.getIdentity, Call.getBoardCall, Call.getColumnsCall])) ∧
    (∀ bn cols, verifyAccountAccess env.identity o.fromAccount o.toAccount = .ok () →
      env.board = some bn → env.columns = some cols → env.cards = none →
      runMigrateBoard o env = (.fatal .fetchCardsFailed, fetchTrace)) ∧
    (∀ bn cols cards, o.dryRun = false →
      verifyAccountAccess env.identity o.fromAccount o.toAccount = .ok () →
      env.board = some bn → env.columns = some cols → env.cards = some cards →
      env.createBoard bn = none →
      runMigrateBoard o env =
        (.fatal .createBoardFailed, fetchTrace ++ [Call.postBoard bn])) ∧
    (∀ bn cols cards bid, o.dryRun = false →
      verifyAccountAccess env.identity o.fromAccount o.toAccount = .ok () →
      env.board = some bn → env.columns = some cols → env.cards = some cards →
      env.createBoard bn = some bid →
      (runMigrateBoard o env).1.isSuccess = true) ∧
    (∀ bn cols cards bid c, o.dryRun = false →
      verifyAccountAccess env.identity o.fromAccount o.toAccount = .ok () →
      env.board = some bn → env.columns = some cols → env.cards = some cards →
      env.createBoard bn = some bid →
      c ∈ cols → colIsReal c = true → env.createColumn c = none →
      (cols.map SourceColumn.id).Nodup →
      goMapLookup (columnMappingOf env bid cols) c.id = none ∧
      (∀ (card : SourceCard) (stats2 : MigrationStats), card.columnID = c.id →
        ∀ call ∈ (migrateCard o env bid (columnMappingOf env bid cols) stats2 card).2.2,
          call.isTriage = false)) := by
  refine ⟨?_, ?_, ?_, ?_, ?_, ?_, ?_⟩
  · intro e h
    simp [runMigrateBoard, h]
  · intro hver hb
    simp [runMigrateBoard, hver, hb]
  · intro bn hver hb hc
    simp [runMigrateBoard, hver, hb, hc]
  · intro bn cols hver hb hc hk
    simp [runMigrateBoard, hver, hb, hc, hk, fetchTrace]
  · intro bn cols cards hdry hver hb hc hk hcb
    simp [runMigrateBoard, hver, hb, hc, hk, hdry, hcb, fetchTrace]
  · intro bn cols cards bid hdry hver hb hc hk hcb
    simp [runMigrateBoard, hver, hb, hc, hk, hdry, hcb, RunResult.isSuccess]
  · intro bn cols cards bid c hdry hver hb hc hk hcb hmem hreal hfail hnodup
    have habs : goMapLookup (columnMappingOf env bid cols) c.id = none :=
      createColumnsLoop_failed_absent env bid c cols [] 0 hmem hreal hfail hnodup rfl
    refine ⟨habs, ?_⟩
    intro card stats2 hcid call hcall
    refine migrateCard_no_triage o env bid _ stats2 card ?_ call hcall
    rw [hcid]
    exact habs

def c3FailCol : SourceColumn :=
  { kind := some ("real"), pseudo := some false, name := ("Doing")
    color := (""), id := ("c3") }

def c3Cols : List SourceColumn :=
  [{ kind := some ("real"), pseudo := some false, name := ("Backlog")
     color := ("red"), id := ("c1") },
   c3FailCol,
   { kind := some ("not_now"), pseudo := some true, name := ("Maybe?")
     color := (""), id := ("p1") }]

def c3Card : SourceCard :=
  { number := 21, title := ("A"), description := [], descriptionHTML := []
    createdAt := (""), tags := [], columnID := ("c3"), status := ("open")
    golden := false, imageURL := (""), steps := [] }

def c3Env : Env :=
  { identity := some [("a"), ("b")], board := some ("Sprint")
    columns := some c3Cols, cards := some [c3Card]
    createBoard := fun _ => some ("B9")
    createColumn := fun col => if col.id == ("c3") then none else some ("T1")
    createCard := fun _ => some 5
    attDownload := fun _ => false, attUpload := fun _ => none
    tagOk := fun _ _ => true, moveOk := fun _ => true, closeOk := fun _ => true
    goldenOk := fun _ => true, commentsCreated := fun _ => 0
    stepOk := fun _ _ => true, imageOk := fun _ => true }

def c3Opts : MigrateOpts :=
  { fromAccount := ("a"), toAccount := ("b"), includeComments := false
    includeSteps := false, includeImages := false, dryRun := false }

/-- C3 witness: with one real column failing to create, the run still
succeeds, that column is absent from the column mapping, and the card
destined for it triggers no triage call. -/
theorem c3_fatal_boundaries_witness :
    (runMigrateBoard c3Opts c3Env).1.isSuccess = true ∧
    goMapLookup (columnMappingOf c3Env ("B9") c3Cols) ("c3") = none ∧
    ((migrateCard c3Opts c3Env ("B9") (columnMappingOf c3Env ("B9") c3Cols)
        initialStats c3Card).2.2.all (fun call => !(Call.isTriage call))) = true := by
  have h := c3_fatal_boundaries c3Opts c3Env
  have h6 := h.2.2.2.2.2.1 ("Sprint") c3Cols [c3Card] ("B9") rfl rfl rfl rfl rfl rfl
  have h7 := h.2.2.2.2.2.2 ("Sprint") c3Cols [c3Card] ("B9") c3FailCol rfl rfl rfl
    rfl rfl rfl (by decide) (by decide) (by decide) (by decide)
  refine ⟨h6, h7.1, ?_⟩
  rw [List.all_eq_true]
  intro call hcall
  have ht := h7.2 c3Card initialStats rfl call hcall
  simp [ht]

/-! ### Claim C1: the card mapping -/

theorem cardOutcome_eq_some (o : MigrateOpts) (env : Env) (c : SourceCard) (n : Int) :
    cardOutcome o env c = some n ↔
      (env.createCard (buildCardParams o env c) = some n ∧ n ≠ 0) := by
  unfold cardOutcome
  rcases h : env.createCard (buildCardParams o env c) with _ | m
  · simp
  · by_cases hm : m = 0
    · subst hm
      simp only [if_pos rfl]
      constructor
      · intro hh; exact absurd hh (by simp)
      · rintro ⟨hh, hne⟩
        exact absurd (by simpa using hh.symm) hne
    · simp only [if_neg hm]
      constructor
      · intro hh
        exact ⟨hh, by rintro rfl; exact hm (by simpa using hh)⟩
      · exact fun ⟨hh, _⟩ => hh

theorem migrateCardsLoop_mapping (o : MigrateOpts) (env : Env) (bid : String)
    (mapping : List (String × String)) :
    ∀ (cards : List SourceCard) (stats : MigrationStats),
      (∀ p ∈ stats.cardMapping, (p : Int × Int).1 ∉ cards.map SourceCard.number) →
      (cards.map SourceCard.number).Nodup →
      (migrateCardsLoop o env bid mapping cards stats).1.cardMapping =
        stats.cardMapping ++ cards.filterMap
          (fun c => (cardOutcome o env c).map (fun n => (c.number, n))) ∧
      (migrateCardsLoop o env bid mapping cards stats).1.cardsCreated =
        stats.cardsCreated + Int.ofNat
          ((cards.filter (fun c => (cardOutcome o env c).isSome)).length) := by
  intro cards
  induction cards with
  | nil =>
    intro stats _ _
    constructor <;> simp [migrateCardsLoop]
  | cons c rest ih =>
    intro stats hdis hnodup
    rw [List.map_cons, List.nodup_cons] at hnodup
    have hout : (migrateCard o env bid mapping stats c).2.1 = cardOutcome o env c :=
      migrateCard_outcome o env bid mapping stats c
    have hmapf := migrateCard_mapping_fields o env bid mapping stats c
    simp only [migrateCardsLoop, hout]
    rcases ho : cardOutcome o env c with _ | n
    · have hdis' : ∀ p ∈ (migrateCard o env bid mapping stats c).1.cardMapping,
          (p : Int × Int).1 ∉ rest.map SourceCard.number := by
        rw [hmapf.1]
        intro p hp
        have := hdis p hp
        simp only [List.map_cons, List.mem_cons, not_or] at this
        exact this.2
      obtain ⟨hm, hcnt⟩ := ih (migrateCard o env bid mapping stats c).1 hdis' hnodup.2
      constructor
      · rw [hm, hmapf.1]
        simp [List.filterMap_cons, ho]
      · rw [hcnt, hmapf.2]
        simp [List.filter_cons, ho]
    · have hkeynot : ∀ p ∈ (migrateCard o env bid mapping stats c).1.cardMapping,
          (p : Int × Int).1 ≠ c.number := by
        rw [hmapf.1]
        intro p hp heq
        have := hdis p hp
        simp [List.map_cons, heq] at this
      have hins : goMapInsert (migrateCard o env bid mapping stats c).1.cardMapping
          c.number n =
          (migrateCard o env bid mapping stats c).1.cardMapping ++ [(c.number, n)] :=
        goMapInsert_not_present _ _ _ hkeynot
      have hdis2 : ∀ p ∈ (goMapInsert (migrateCard o env bid mapping stats c).1.cardMapping
          c.number n), (p : Int × Int).1 ∉ rest.map SourceCard.number := by
        rw [hins]
        intro p hp
        rcases List.mem_append.mp hp with hp1 | hp2
        · have h0 := hdis p (by rw [hmapf.1] at hp1; exact hp1)
          simp only [List.map_cons, List.mem_cons, not_or] at h0
          exact h0.2
        · obtain rfl : p = (c.number, n) := by simpa using hp2
          exact hnodup.1
      obtain ⟨hm, hcnt⟩ := ih
        { (migrateCard o env bid mapping stats c).1 with
          cardMapping := goMapInsert
            (migrateCard o env bid mapping stats c).1.cardMapping c.number n
          cardsCreated := (migrateCard o env bid mapping stats c).1.cardsCreated + 1 }
        hdis2 hnodup.2
      constructor
      · rw [hm]
        simp only [MigrationStats.mk.injEq]
        rw [hins, hmapf.1]
        simp [List.filterMap_cons, ho, List.append_assoc]
      · rw [hcnt]
        simp only []
        rw [hmapf.2]
        simp only [List.filter_cons, ho, Option.isSome_some, if_true]
        simp [List.length_cons, Int.ofNat_succ]
        omega

theorem filterMap_outcome_keys (o : MigrateOpts) (env : Env) :
    ∀ cards : List SourceCard,
      ((cards.filterMap
          (fun c => (cardOutcome o env c).map (fun n => (c.number, n)))).map Prod.fst) =
        (cards.filter (fun c => (cardOutcome o env c).isSome)).map SourceCard.number := by
  intro cards
  induction cards with
  | nil => rfl
  | cons c rest ih =>
    rcases ho : cardOutcome o env c with _ | n <;>
      simp [List.filterMap_cons, List.filter_cons, ho, ih]

/-- C1: in a run that reaches the card loop, the card-mapping output has
exactly one entry per successfully created target card, keyed by the source
card number and mapping to the new target card number, in source order; an
entry `(src, n)` is present iff some source card numbered `src` had its
creation POST succeed with a non-zero extracted number `n` -- independent
of every per-card sub-step oracle (tags, placement, close/golden, comments,
steps, image), none of which appears in `cardOutcome`; the keys are
distinct and the cards-created counter equals the mapping size. -/
theorem c1_card_mapping (o : MigrateOpts) (env : Env) (bn bid : String)
    (cols : List SourceColumn) (cards : List SourceCard)
    (hdry : o.dryRun = false)
    (hver : verifyAccountAccess env.identity o.fromAccount o.toAccount = .ok ())
    (hb : env.board = some bn) (hc : env.columns = some cols)
    (hk : env.cards = some cards) (hcb : env.createBoard bn = some bid)
    (hnodup : (cards.map SourceCard.number).Nodup) :
    ∃ stats tr, runMigrateBoard o env = (.success stats, tr) ∧
      stats.cardMapping = cards.filterMap
        (fun c => (cardOutcome o env c).map (fun n => (c.number, n))) ∧
      (∀ src n, (src, n) ∈ stats.cardMapping ↔
        ∃ c ∈ cards, c.number = src ∧ cardOutcome o env c = some n) ∧
      (∀ c n, cardOutcome o env c = some n ↔
        (env.createCard (buildCardParams o env c) = some n ∧ n ≠ 0)) ∧
      (stats.cardMapping.map Prod.fst).Nodup ∧
      stats.cardsCreated = Int.ofNat
        ((cards.filter (fun c => (cardOutcome o env c).isSome)).length) := by
  have hloop := migrateCardsLoop_mapping o env bid (createColumnsLoop env bid cols [] 0).1
    cards
    { initialStats with
        boardCreated := true,
        targetBoardID := bid,
        targetBoardName := bn,
        columnsCreated := (createColumnsLoop env bid cols [] 0).2.1 }
    (by intro p hp; simp [initialStats] at hp) hnodup
  refine ⟨(migrateCardsLoop o env bid (createColumnsLoop env bid cols [] 0).1 cards
      { initialStats with
        boardCreated := true,
        targetBoardID := bid,
        targetBoardName := bn,
        columnsCreated := (createColumnsLoop env bid cols [] 0).2.1 }).1,
    fetchTrace ++ [Call.postBoard bn] ++ (createColumnsLoop env bid cols [] 0).2.2 ++
      (migrateCardsLoop o env bid (createColumnsLoop env bid cols [] 0).1 cards
      { initialStats with
        boardCreated := true,
        targetBoardID := bid,
        targetBoardName := bn,
        columnsCreated := (createColumnsLoop env bid cols [] 0).2.1 }).2,
    ?_, ?_, ?_, fun c n => cardOutcome_eq_some o env c n, ?_, ?_⟩
  · simp [runMigrateBoard, hver, hb, hc, hk, hdry, hcb]
  · rw [hloop.1]
    simp [initialStats]
  · intro src n
    rw [hloop.1]
    simp only [initialStats, List.nil_append, List.mem_filterMap, Option.map_eq_some']
    constructor
    · rintro ⟨c, hcm, m, hm, heq⟩
      obtain ⟨h1, h2⟩ : c.number = src ∧ m = n := by
        constructor <;> [exact congrArg Prod.fst heq; exact congrArg Prod.snd heq]
      exact ⟨c, hcm, h1, h2 ▸ hm⟩
    · rintro ⟨c, hcm, rfl, hm⟩
      exact ⟨c, hcm, n, hm, rfl⟩
  · rw [hloop.1]
    simp only [initialStats, List.nil_append]
    rw [filterMap_outcome_keys]
    exact List.Nodup.sublist (List.Sublist.map _ (List.filter_sublist _)) hnodup
  · rw [hloop.2]
    simp [initialStats]

def c1Cards : List SourceCard :=
  [{ number := 11, title := ("A"), description := [], descriptionHTML := []
     createdAt := (""), tags := [], columnID := (""), status := ("open")
     golden := false, imageURL := (""), steps := [] },
   { number := 12, title := ("B"), description := [], descriptionHTML := []
     createdAt := (""), tags := [], columnID := (""), status := ("open")
     golden := false, imageURL := (""), steps := [] }]

def c1Env : Env :=
  { identity := some [("a"), ("b")], board := some ("Sprint")
    columns := some [], cards := some c1Cards
    createBoard := fun _ => some ("B9")
    createColumn := fun _ => none
    createCard := fun p => if p.title == ("B") then some 0 else some 101
    attDownload := fun _ => false, attUpload := fun _ => none
    tagOk := fun _ _ => false, moveOk := fun _ => false, closeOk := fun _ => false
    goldenOk := fun _ => false, commentsCreated := fun _ => 0
    stepOk := fun _ _ => false, imageOk := fun _ => false }

def c1Opts : MigrateOpts :=
  { fromAccount := ("a"), toAccount := ("b"), includeComments := false
    includeSteps := false, includeImages := false, dryRun := false }

/-- C1 witness: of two source cards, one creation succeeds with number 101
and the other yields no card number; the mapping has exactly the one entry
`11 -> 101` and one card counted. -/
theorem c1_card_mapping_witness :
    ∃ stats tr, runMigrateBoard c1Opts c1Env = (.success stats, tr) ∧
      stats.cardMapping = [((11 : Int), (101 : Int))] ∧ stats.cardsCreated = 1 := by
  obtain ⟨stats, tr, hrun, hmap, -, -, -, hcnt⟩ :=
    c1_card_mapping c1Opts c1Env ("Sprint") ("B9") [] c1Cards rfl rfl rfl rfl rfl rfl
      (by decide)
  refine ⟨stats, tr, hrun, ?_, ?_⟩
  · rw [hmap]; decide
  · rw [hcnt]; decide

/-! ### Claim C10: description sent at card creation -/

/-- C10: with images enabled, when inline-attachment migration over the
source `description_html` reports at least one migrated attachment, the
description sent in the card-creation request is the migrated rich-text
HTML (derived from `description_html`); when it reports zero -- including
when every reference failed -- or `description_html` is empty, the card is
created with the source's plain `description` field unchanged (omitted
when empty, as all empty fields are); and `migrateCard` posts exactly one
card-creation request, carrying exactly these parameters. -/
theorem c10_description_choice (o : MigrateOpts) (env : Env) (c : SourceCard)
    (himg : o.includeImages = true) :
    ((c.descriptionHTML.isEmpty = false ∧
        0 < (migrateInlineAttachments env c.descriptionHTML).2.1) →
      (buildCardParams o env c).description =
        optStr (migrateInlineAttachments env c.descriptionHTML).1) ∧
    ((c.descriptionHTML.isEmpty = false ∧
        (migrateInlineAttachments env c.descriptionHTML).2.1 = 0) →
      (buildCardParams o env c).description = optStr c.description) ∧
    (c.descriptionHTML.isEmpty = true →
      (buildCardParams o env c).description = optStr c.description) ∧
    (∀ bid mapping stats,
      Call.postCard bid (buildCardParams o env c) ∈
        (migrateCard o env bid mapping stats c).2.2 ∧
      (∀ bid2 p, Call.postCard bid2 p ∈ (migrateCard o env bid mapping stats c).2.2 →
        bid2 = bid ∧ p = buildCardParams o env c)) := by
  refine ⟨?_, ?_, ?_, ?_⟩
  · rintro ⟨h1, h2⟩
    simp [buildCardParams, inlinePhase, himg, h1, h2]
  · rintro ⟨h1, h2⟩
    simp [buildCardParams, inlinePhase, himg, h1, h2]
  · intro h1
    simp [buildCardParams, inlinePhase, himg, h1]
  · intro bid mapping stats
    exact ⟨migrateCard_postCard_mem o env bid mapping stats c,
      fun bid2 p hp => migrateCard_postCard_unique o env bid mapping stats c bid2 p hp⟩

def c10Card : SourceCard :=
  { number := 31, title := ("T"), description := ("plain").toList
    descriptionHTML := ("<action-text-attachment sgid=\"S1\" filename=\"a.png\"><a href=\"/x/rails/active_storage/blobs/redirect/b1\">d</a></action-text-attachment>").toList
    createdAt := (""), tags := [], columnID := (""), status := ("open")
    golden := false, imageURL := (""), steps := [] }

def c10EnvOk : Env :=
  { identity := none, board := none, columns := none, cards := none
    createBoard := fun _ => none, createColumn := fun _ => none
    createCard := fun _ => some 7
    attDownload := fun _ => true
    attUpload := fun _ => some { attachableSgid := ("NN").toList, signedId := [] }
    tagOk := fun _ _ => false, moveOk := fun _ => false, closeOk := fun _ => false
    goldenOk := fun _ => false, commentsCreated := fun _ => 0
    stepOk := fun _ _ => false, imageOk := fun _ => false }

def c10EnvFail : Env :=
  { c10EnvOk with attDownload := fun _ => false }

def c10Opts : MigrateOpts :=
  { fromAccount := ("a"), toAccount := ("b"), includeComments := false
    includeSteps := false, includeImages := true, dryRun := false }

set_option maxRecDepth 400000 in
/-- C10 witness: with a working attachment transfer the posted description
is the rewritten HTML; with every reference failing it is the plain
source description. -/
theorem c10_description_choice_witness :
    (buildCardParams c10Opts c10EnvOk c10Card).description =
      some ((("<action-text-attachment sgid=\"").toList) ++ (("NN").toList) ++
        (("\" filename=\"a.png\"><a href=\"/x/rails/active_storage/blobs/redirect/b1\">d</a></action-text-attachment>").toList)) ∧
    (buildCardParams c10Opts c10EnvFail c10Card).description =
      some (("plain").toList) := by
  constructor
  · have h := (c10_description_choice c10Opts c10EnvOk c10Card rfl).1 ⟨by decide, by decide⟩
    rw [h]
    decide
  · have h := (c10_description_choice c10Opts c10EnvFail c10Card rfl).2.1 ⟨by decide, by decide⟩
    rw [h]
    decide

/-! ### Claim C6: a failed inline attachment is non-fatal and uncounted -/

/-- C6: when of two inline references the first migrates and the second
fails at download or upload, the rewritten HTML substitutes only the first
reference's sgid, the migrated count is 1 (not 2), the failed reference's
untranslated sgid remains in the description the card is created with, and
`migrateCard` still issues the card-creation POST, succeeds with the new
card number, and adds exactly 1 to the images-migrated counter (header
image absent).  The occurrence side conditions say the first sgid's first
occurrence does not overlap an occurrence of the second sgid. -/
theorem c6_failed_inline_attachment (o : MigrateOpts) (env : Env) (c : SourceCard)
    (a1 a2 : GoAttachment) (u : UploadResp) (b aft : List Char) (n : Int)
    (himg : o.includeImages = true)
    (hhtml : c.descriptionHTML.isEmpty = false)
    (hparse : parseAttachments c.descriptionHTML = [a1, a2])
    (hurl1 : a1.DownloadURL.isEmpty = false)
    (hdl1 : env.attDownload a1 = true)
    (hup1 : env.attUpload a1 = some u)
    (hnew : (newSgidOf u).isEmpty = false)
    (hsgid1 : a1.SGID.isEmpty = false)
    (hurl2 : a2.DownloadURL.isEmpty = false)
    (hfail : env.attDownload a2 = false ∨ env.attUpload a2 = none)
    (hsplit : splitOnFirst a1.SGID c.descriptionHTML = some (b, aft))
    (hB : containsSub b a2.SGID = true ∨ containsSub aft a2.SGID = true)
    (hcreate : env.createCard (buildCardParams o env c) = some n)
    (hn : n ≠ 0)
    (hnoheader : c.imageURL.isEmpty = true) :
    (migrateInlineAttachments env c.descriptionHTML).1 = b ++ newSgidOf u ++ aft ∧
    (migrateInlineAttachments env c.descriptionHTML).2.1 = 1 ∧
    (buildCardParams o env c).description = some (b ++ newSgidOf u ++ aft) ∧
    containsSub (b ++ newSgidOf u ++ aft) a2.SGID = true ∧
    ∀ bid mapping stats,
      (migrateCard o env bid mapping stats c).2.1 = some n ∧
      (migrateCard o env bid mapping stats c).1.imagesMigrated =
        stats.imagesMigrated + 1 ∧
      Call.postCard bid (buildCardParams o env c) ∈
        (migrateCard o env bid mapping stats c).2.2 := by
  have hrep : goReplace1 c.descriptionHTML a1.SGID (newSgidOf u) =
      b ++ newSgidOf u ++ aft :=
    goReplace1_eq_of_split _ (by simp [hsgid1]) hsplit
  have hres : (migrateInlineAttachments env c.descriptionHTML).1 =
      b ++ newSgidOf u ++ aft ∧
      (migrateInlineAttachments env c.descriptionHTML).2.1 = 1 := by
    unfold migrateInlineAttachments
    rw [hparse]
    rcases hfail with hf | hf
    · simp [inlineLoop, hurl1, hdl1, hup1, hnew, hsgid1, hurl2, hf, hrep]
    · by_cases hd2 : env.attDownload a2 = true
      · simp [inlineLoop, hurl1, hdl1, hup1, hnew, hsgid1, hurl2, hf, hd2, hrep]
      · rw [Bool.not_eq_true] at hd2
        simp [inlineLoop, hurl1, hdl1, hup1, hnew, hsgid1, hurl2, hf, hd2, hrep]
  have hip : inlinePhase o env c = migrateInlineAttachments env c.descriptionHTML := by
    simp [inlinePhase, himg, hhtml]
  have hne : (b ++ newSgidOf u ++ aft).isEmpty = false := by
    rcases hNl : newSgidOf u with _ | ⟨x, xs⟩
    · rw [hNl] at hnew
      simp at hnew
    · cases b <;> rfl
  have hdesc : (buildCardParams o env c).description =
      some (b ++ newSgidOf u ++ aft) := by
    simp only [buildCardParams, hip, hres.2, hres.1]
    simp only [Nat.lt_irrefl, Nat.zero_lt_one, if_true, optStr, hne,
      Bool.false_eq_true, if_false]
  have hcontains : containsSub (b ++ newSgidOf u ++ aft) a2.SGID = true := by
    rcases hB with hB | hB
    · rw [List.append_assoc]
      exact containsSub_append_left _ hB
    · exact containsSub_append_right _ hB
  refine ⟨hres.1, hres.2, hdesc, hcontains, ?_⟩
  intro bid mapping stats
  have hout : (migrateCard o env bid mapping stats c).2.1 = some n := by
    rw [migrateCard_outcome]
    exact (cardOutcome_eq_some o env c n).mpr ⟨hcreate, hn⟩
  have hcond : (o.includeImages && !c.imageURL.isEmpty) = false := by
    rw [hnoheader]
    simp
  have himgs : (migrateCard o env bid mapping stats c).1.imagesMigrated =
      stats.imagesMigrated + 1 := by
    have hip1 : (inlinePhase o env c).2.1 = 1 := by rw [hip]; exact hres.2
    simp only [migrateCard, hcreate, if_neg hn, hip1, hcond,
      Bool.false_eq_true, if_false]
    split_ifs <;>
      simp [applyTagsLoop_imagesMigrated, stepsLoop_imagesMigrated]
  exact ⟨hout, himgs, migrateCard_postCard_mem o env bid mapping stats c⟩

def c6Html : List Char :=
  ("<action-text-attachment sgid=\"AAA\" filename=\"a.png\"><a href=\"/x/rails/active_storage/blobs/redirect/b1\">d</a></action-text-attachment><action-text-attachment sgid=\"BBB\" filename=\"b.png\"><a href=\"/x/rails/active_storage/blobs/redirect/b2\">d</a></action-text-attachment>").toList

def c6B : List Char := ("<action-text-attachment sgid=\"").toList

def c6Aft : List Char :=
  ("\" filename=\"a.png\"><a href=\"/x/rails/active_storage/blobs/redirect/b1\">d</a></action-text-attachment><action-text-attachment sgid=\"BBB\" filename=\"b.png\"><a href=\"/x/rails/active_storage/blobs/redirect/b2\">d</a></action-text-attachment>").toList

def c6A1 : GoAttachment :=
  { Index := 1, Filename := ("a.png").toList, ContentType := []
    Filesize := 0, Width := 0, Height := 0
    DownloadURL := ("/x/rails/active_storage/blobs/redirect/b1?disposition=attachment").toList
    SGID := ("AAA").toList }

def c6A2 : GoAttachment :=
  { Index := 2, Filename := ("b.png").toList, ContentType := []
    Filesize := 0, Width := 0, Height := 0
    DownloadURL := ("/x/rails/active_storage/blobs/redirect/b2?disposition=attachment").toList
    SGID := ("BBB").toList }

def c6Upload : UploadResp := { attachableSgid := ("NN").toList, signedId := [] }

def c6Card : SourceCard :=
  { number := 41, title := ("T"), description := ("plain").toList
    descriptionHTML := c6Html
    createdAt := (""), tags := [], columnID := (""), status := ("open")
    golden := false, imageURL := (""), steps := [] }

def c6Env : Env :=
  { identity := none, board := none, columns := none, cards := none
    createBoard := fun _ => none, createColumn := fun _ => none
    createCard := fun _ => some 7
    attDownload := fun a => a.Index == 1
    attUpload := fun _ => some c6Upload
    tagOk := fun _ _ => false, moveOk := fun _ => false, closeOk := fun _ => false
    goldenOk := fun _ => false, commentsCreated := fun _ => 0
    stepOk := fun _ _ => false, imageOk := fun _ => false }

def c6Opts : MigrateOpts :=
  { fromAccount := ("a"), toAccount := ("b"), includeComments := false
    includeSteps := false, includeImages := true, dryRun := false }

set_option maxRecDepth 1000000 in
/-- C6 witness: of two inline references, the download of the second fails;
the card is still created under number 7, exactly one image is counted, and
the untranslated sgid `BBB` remains in the stored description. -/
theorem c6_failed_inline_attachment_witness :
    (migrateCard c6Opts c6Env ("B9") [] initialStats c6Card).2.1 = some 7 ∧
    (migrateCard c6Opts c6Env ("B9") [] initialStats c6Card).1.imagesMigrated = 1 ∧
    (buildCardParams c6Opts c6Env c6Card).description =
      some (c6B ++ (("NN").toList) ++ c6Aft) ∧
    containsSub (c6B ++ (("NN").toList) ++ c6Aft) (("BBB").toList) = true := by
  have h := c6_failed_inline_attachment c6Opts c6Env c6Card c6A1 c6A2 c6Upload
    c6B c6Aft 7 rfl (by decide) (by decide) (by decide) (by decide) (by decide)
    (by decide) (by decide) (by decide) (Or.inl (by decide)) (by decide)
    (Or.inr (by decide)) (by decide) (by decide) (by decide)
  have h5 := h.2.2.2.2 ("B9") [] initialStats
  refine ⟨h5.1, ?_, h.2.2.1, h.2.2.2.1⟩
  rw [h5.2.1]
  decide
